import Mathlib

/-!
Verification development for the javaprs repository: a minimal JVM
consisting of a class-file parser (`src/classreader.rs`), a constant pool
(`src/class/mod.rs`) and a stack-frame bytecode interpreter
(`src/runtime/interpreter.rs`).

Modelling conventions, applied uniformly:

* Machine integers are modelled as `Nat`/`Int`.  Fixed-width arithmetic
  uses release-build Rust semantics, i.e. two's-complement wraparound
  (the spec states "fixed-width wraparound on overflow, no trap"):
  `wrap32` for `i32` arithmetic, and `u16` subtraction in
  `ConstantPool::get` / `read_class_file` wraps modulo `2^16`.
* A Rust panic (an `Option::unwrap` on `None`, or an out-of-range `Vec`
  index) is modelled as `none`; a normal `Result` is the `Except` inside
  the `Option`.  So `Option (Except E A)` reads: `none` = panic,
  `some (.error e)` = `Err(e)`, `some (.ok a)` = `Ok(a)`.
* The `Rc<RefCell<Vec<i32>>>` shared integer arrays of the interpreter
  are modelled by an explicit arena: the interpreter state carries a heap
  of integer arrays, and `StackValue.IntegerArrayReference` holds an
  index into that heap.  Cloning the stack value clones the index only,
  exactly as cloning the `Rc` clones the pointer only.
* Byte buffers are `List Nat` with each element a byte value; the
  reader functions consume from the front, as `buffer.remove(0)` does.
* `read_attribute`/`read_attributes` recurse through nested Code
  attributes; the Rust recursion terminates because every nested
  attribute list lives in a strictly smaller sliced sub-buffer.  The
  Lean model makes this explicit with a fuel parameter that bounds the
  nesting depth; `read_class_file` supplies `input length + 1`, which
  strictly exceeds any reachable nesting depth (each level consumes at
  least the six bytes of an attribute header), so the fuel-exhaustion
  branch is unreachable on every input.
-/

deriving instance DecidableEq for Except

/-- Two's-complement 32-bit wraparound, the value an `i32` addition,
subtraction or multiplication produces in a release build. -/
def wrap32 (x : Int) : Int := (x + 2 ^ 31) % 2 ^ 32 - 2 ^ 31

/-- The `usize` obtained from an `i32` by `as usize` (sign-extension then
reinterpretation on a 64-bit target). -/
def usizeOfI32 (x : Int) : Nat := (x % 2 ^ 64).toNat

/-- Modelled from the spec: the `Instruction` enum is declared in the
`code::instruction` module, which is not under `src/`; its variants are
reconstructed from the match arms of `interpret_instruction` in
`src/runtime/interpreter.rs`, together with two representative decoded
opcodes (`Nop`, `Aload0`) that reach the catch-all arm (spec section 4.2
lists the disassembler's per-opcode decoding). -/
inductive Instruction where
  | Aload1
  | Astore1
  | Dup
  | Iadd
  | Iaload
  | Iastore
  | Iconst0
  | Iconst1
  | Iconst2
  | Iconst3
  | Iconst4
  | Iconst5
  | Imul
  | Iload (index : Nat)
  | Iload0
  | Iload1
  | Iload2
  | Iload3
  | Istore (index : Nat)
  | Istore0
  | Istore1
  | Istore2
  | Istore3
  | Isub
  | Newarray (atype : Nat)
  | Sipush (value : Int)
  | Return
  | Nop
  | Aload0
deriving DecidableEq

/-- `StackValue` from `src/runtime/interpreter.rs`.
`IntegerArrayReference` holds an arena index standing for the
`Rc<RefCell<Vec<i32>>>` pointer (see the header comment). -/
inductive StackValue where
  | Long (v : Int)
  | Integer (v : Int)
  | Short (v : Int)
  | Byte (v : Int)
  | Character (c : Char)
  | IntegerArrayReference (ref : Nat)
  | Empty
deriving DecidableEq

/-- `StackFrame` from `src/runtime/interpreter.rs`: a locals vector and an
operand stack (top of stack = head of the list, matching `Vec::push`/`pop`
at the back). -/
structure StackFrame where
  locals : List StackValue
  stack : List StackValue
deriving DecidableEq

/-- The arena of allocated integer arrays (see the header comment). -/
abbrev Heap := List (List Int)

/-- The full interpreter state: the one stack frame plus the arena holding
every `IntArray` allocated so far. -/
structure JvmState where
  frame : StackFrame
  heap : Heap
deriving DecidableEq

/-- `InterpreterError` from `src/runtime/interpreter.rs`. -/
inductive InterpreterError where
  | UnhandledInstruction (i : Instruction)
  | UnexpectedOperand
  | InvalidArrayType
deriving DecidableEq

/-- `StackFrame::pop_stack`: `self.stack.pop()` returns `None` on an empty
stack. -/
def StackFrame.pop_stack (f : StackFrame) : Option (StackValue × StackFrame) :=
  match f.stack with
  | [] => none
  | v :: rest => some (v, { f with stack := rest })

/-- `StackFrame::push_stack`. -/
def StackFrame.push_stack (f : StackFrame) (v : StackValue) : StackFrame :=
  { f with stack := v :: f.stack }

/-- `StackFrame::get_local`: `&self.locals[index]`; `none` models the
`Vec` index panic when `index` is out of range. -/
def StackFrame.get_local (f : StackFrame) (index : Nat) : Option StackValue :=
  f.locals[index]?

/-- `StackFrame::set_local`: `self.locals[index] = var`; `none` models the
`Vec` index panic when `index` is out of range. -/
def StackFrame.set_local (f : StackFrame) (index : Nat) (v : StackValue) :
    Option StackFrame :=
  if index < f.locals.length then some { f with locals := f.locals.set index v }
  else none

/-- `StackFrame::push_int`. -/
def StackFrame.push_int (f : StackFrame) (i : Int) : StackFrame :=
  f.push_stack (.Integer i)

/-- `StackFrame::pop_int`: `self.pop_stack().unwrap()` (panic on an empty
stack, hence the outer `Option`), then a type check producing
`UnexpectedOperand` on a non-integer operand. -/
def StackFrame.pop_int (f : StackFrame) :
    Option (Except InterpreterError (Int × StackFrame)) :=
  match f.pop_stack with
  | none => none
  | some (operand, f') =>
    match operand with
    | .Integer i => some (.ok (i, f'))
    | _ => some (.error .UnexpectedOperand)

/-- `StackFrame::pop_int_array`: like `pop_int` but expecting an
`IntegerArrayReference`. -/
def StackFrame.pop_int_array (f : StackFrame) :
    Option (Except InterpreterError (Nat × StackFrame)) :=
  match f.pop_stack with
  | none => none
  | some (operand, f') =>
    match operand with
    | .IntegerArrayReference r => some (.ok (r, f'))
    | _ => some (.error .UnexpectedOperand)

/-- `StackFrame::get_int_local`: `get_local` (panic when out of range),
then a type check producing `UnexpectedOperand` on anything that is not an
`Integer` (in particular on the uninitialized `Empty` marker). -/
def StackFrame.get_int_local (f : StackFrame) (index : Nat) :
    Option (Except InterpreterError Int) :=
  match f.get_local index with
  | none => none
  | some operand =>
    match operand with
    | .Integer i => some (.ok i)
    | _ => some (.error .UnexpectedOperand)

/-- `StackFrame::set_int_local`. -/
def StackFrame.set_int_local (f : StackFrame) (index : Nat) (v : Int) :
    Option StackFrame :=
  f.set_local index (.Integer v)

/-- `StackFrame::new_frame`: `max_locals` slots initialized to the `Empty`
marker and an empty operand stack. -/
def StackFrame.new_frame (max_stack max_locals : Nat) : StackFrame :=
  { locals := List.replicate max_locals .Empty, stack := [] }

/-- `IntArray::get` against the arena: `self.array.borrow()[index]`;
`none` models the `Vec` index panic on an out-of-range index (and a
dangling arena index, which no reachable state produces). -/
def IntArray.get (heap : Heap) (r : Nat) (index : Nat) : Option Int :=
  match heap[r]? with
  | none => none
  | some a => a[index]?

/-- `IntArray::set` against the arena: `self.array.borrow_mut()[index] = value`;
`none` models the `Vec` index panic. -/
def IntArray.set (heap : Heap) (r : Nat) (index : Nat) (value : Int) :
    Option Heap :=
  match heap[r]? with
  | none => none
  | some a =>
    if index < a.length then some (heap.set r (a.set index value)) else none

/-- `IntArray::new`: `vec![0; size]` - allocate a zero-filled array of
the given size in the arena and return its reference.  `none` models the
deterministic "capacity overflow" panic Rust raises when the requested
byte size `size * 4` exceeds `isize::MAX` (in particular for every
negative `i32` count cast to `usize`); any smaller allocation is
modelled as succeeding (the standard memory abstraction: an
out-of-memory abort is an environment condition, not program
behaviour). -/
def IntArray.new (heap : Heap) (size : Nat) : Option (Nat × Heap) :=
  if size * 4 ≤ 2 ^ 63 - 1 then
    some (heap.length, heap ++ [List.replicate size 0])
  else none

/-- `interpret_instruction` from `src/runtime/interpreter.rs`, one match
arm per instruction, with `none` = panic, `some (.error e)` = `Err(e)`,
`some (.ok s)` = `Ok(())` together with the updated frame/heap. -/
def interpret_instruction : Instruction → JvmState →
    Option (Except InterpreterError JvmState)
  | .Aload1, s =>
    match s.frame.get_local 1 with
    | none => none
    | some operand => some (.ok { s with frame := s.frame.push_stack operand })
  | .Astore1, s =>
    match s.frame.pop_stack with
    | none => none
    | some (operand, f') =>
      match f'.set_local 1 operand with
      | none => none
      | some f2 => some (.ok { s with frame := f2 })
  | .Dup, s =>
    match s.frame.pop_stack with
    | none => none
    | some (operand, f') =>
      some (.ok { s with frame := (f'.push_stack operand).push_stack operand })
  | .Iadd, s =>
    match s.frame.pop_int with
    | none => none
    | some (.error e) => some (.error e)
    | some (.ok (value2, f1)) =>
      match f1.pop_int with
      | none => none
      | some (.error e) => some (.error e)
      | some (.ok (value1, f2)) =>
        some (.ok { s with frame := f2.push_int (wrap32 (value1 + value2)) })
  | .Iaload, s =>
    match s.frame.pop_int with
    | none => none
    | some (.error e) => some (.error e)
    | some (.ok (index, f1)) =>
      match f1.pop_int_array with
      | none => none
      | some (.error e) => some (.error e)
      | some (.ok (r, f2)) =>
        match IntArray.get s.heap r (usizeOfI32 index) with
        | none => none
        | some value => some (.ok { s with frame := f2.push_int value })
  | .Iastore, s =>
    match s.frame.pop_int with
    | none => none
    | some (.error e) => some (.error e)
    | some (.ok (value, f1)) =>
      match f1.pop_int with
      | none => none
      | some (.error e) => some (.error e)
      | some (.ok (index, f2)) =>
        match f2.pop_int_array with
        | none => none
        | some (.error e) => some (.error e)
        | some (.ok (r, f3)) =>
          match IntArray.set s.heap r (usizeOfI32 index) value with
          | none => none
          | some heap' => some (.ok { frame := f3, heap := heap' })
  | .Iconst0, s => some (.ok { s with frame := s.frame.push_int 0 })
  | .Iconst1, s => some (.ok { s with frame := s.frame.push_int 1 })
  | .Iconst2, s => some (.ok { s with frame := s.frame.push_int 2 })
  | .Iconst3, s => some (.ok { s with frame := s.frame.push_int 3 })
  | .Iconst4, s => some (.ok { s with frame := s.frame.push_int 4 })
  | .Iconst5, s => some (.ok { s with frame := s.frame.push_int 5 })
  | .Imul, s =>
    match s.frame.pop_int with
    | none => none
    | some (.error e) => some (.error e)
    | some (.ok (value2, f1)) =>
      match f1.pop_int with
      | none => none
      | some (.error e) => some (.error e)
      | some (.ok (value1, f2)) =>
        some (.ok { s with frame := f2.push_int (wrap32 (value1 * value2)) })
  | .Iload index, s =>
    match s.frame.get_int_local index with
    | none => none
    | some (.error e) => some (.error e)
    | some (.ok i) => some (.ok { s with frame := s.frame.push_int i })
  | .Iload0, s =>
    match s.frame.get_int_local 0 with
    | none => none
    | some (.error e) => some (.error e)
    | some (.ok i) => some (.ok { s with frame := s.frame.push_int i })
  | .Iload1, s =>
    match s.frame.get_int_local 1 with
    | none => none
    | some (.error e) => some (.error e)
    | some (.ok i) => some (.ok { s with frame := s.frame.push_int i })
  | .Iload2, s =>
    match s.frame.get_int_local 2 with
    | none => none
    | some (.error e) => some (.error e)
    | some (.ok i) => some (.ok { s with frame := s.frame.push_int i })
  | .Iload3, s =>
    match s.frame.get_int_local 3 with
    | none => none
    | some (.error e) => some (.error e)
    | some (.ok i) => some (.ok { s with frame := s.frame.push_int i })
  | .Istore index, s =>
    match s.frame.pop_int with
    | none => none
    | some (.error e) => some (.error e)
    | some (.ok (i, f1)) =>
      match f1.set_int_local index i with
      | none => none
      | some f2 => some (.ok { s with frame := f2 })
  | .Istore0, s =>
    match s.frame.pop_int with
    | none => none
    | some (.error e) => some (.error e)
    | some (.ok (i, f1)) =>
      match f1.set_int_local 0 i with
      | none => none
      | some f2 => some (.ok { s with frame := f2 })
  | .Istore1, s =>
    match s.frame.pop_int with
    | none => none
    | some (.error e) => some (.error e)
    | some (.ok (i, f1)) =>
      match f1.set_int_local 1 i with
      | none => none
      | some f2 => some (.ok { s with frame := f2 })
  | .Istore2, s =>
    match s.frame.pop_int with
    | none => none
    | some (.error e) => some (.error e)
    | some (.ok (i, f1)) =>
      match f1.set_int_local 2 i with
      | none => none
      | some f2 => some (.ok { s with frame := f2 })
  | .Istore3, s =>
    match s.frame.pop_int with
    | none => none
    | some (.error e) => some (.error e)
    | some (.ok (i, f1)) =>
      match f1.set_int_local 3 i with
      | none => none
      | some f2 => some (.ok { s with frame := f2 })
  | .Isub, s =>
    match s.frame.pop_int with
    | none => none
    | some (.error e) => some (.error e)
    | some (.ok (value2, f1)) =>
      match f1.pop_int with
      | none => none
      | some (.error e) => some (.error e)
      | some (.ok (value1, f2)) =>
        some (.ok { s with frame := f2.push_int (wrap32 (value1 - value2)) })
  | .Newarray atype, s =>
    match s.frame.pop_int with
    | none => none
    | some (.error e) => some (.error e)
    | some (.ok (count, f1)) =>
      if atype = 10 then
        match IntArray.new s.heap (usizeOfI32 count) with
        | none => none
        | some (r, heap') =>
          some (.ok { frame := f1.push_stack (.IntegerArrayReference r),
                      heap := heap' })
      else
        some (.error .InvalidArrayType)
  | .Sipush value, s => some (.ok { s with frame := s.frame.push_int value })
  | .Return, s => some (.ok s)
  | i, _ => some (.error (.UnhandledInstruction i))

/-- The instruction loop of `interpret`: run the decoded sequence in
order, stopping at the first panic or `InterpreterError`. -/
def runInstructions : List Instruction → JvmState →
    Option (Except InterpreterError JvmState)
  | [], s => some (.ok s)
  | i :: rest, s =>
    match interpret_instruction i s with
    | none => none
    | some (.error e) => some (.error e)
    | some (.ok s') => runInstructions rest s'

/-- `interpret` from `src/runtime/interpreter.rs`: build a fresh frame
from the method's declared `max_stack`/`max_locals` (the `RuntimeMethod`
carrier type is outside `src/`; its three consumed fields are passed
directly) and run the decoded code against it with an initially empty
arena. -/
def interpret (max_stack max_locals : Nat) (code : List Instruction) :
    Option (Except InterpreterError JvmState) :=
  runInstructions code { frame := StackFrame.new_frame max_stack max_locals, heap := [] }

/-- Sequential continuation: feed the outcome of one run into a further
instruction list, used to state that execution is strictly in order. -/
def bindRun (r : Option (Except InterpreterError JvmState))
    (code : List Instruction) : Option (Except InterpreterError JvmState) :=
  match r with
  | none => none
  | some (.error e) => some (.error e)
  | some (.ok s) => runInstructions code s

/-- `ConstantPoolEntry` from `src/class/mod.rs`.  `Utf8` carries the
string as its byte sequence (the Rust `String` holds exactly these
UTF-8 bytes). -/
inductive ConstantPoolEntry where
  | Class (name_index : Nat)
  | Fieldref (class_index name_and_type_index : Nat)
  | Methodref (class_index name_and_type_index : Nat)
  | InterfaceMethodref (class_index name_and_type_index : Nat)
  | String (string_index : Nat)
  | Integer (bytes : Nat)
  | Float (bytes : Nat)
  | Long (high_bytes low_bytes : Nat)
  | Double (high_bytes low_bytes : Nat)
  | NameAndType (name_index descriptor_index : Nat)
  | Utf8 (s : List Nat)
  | MethodHandle (reference_kind reference_index : Nat)
  | MethodType (descriptor_index : Nat)
  | InvokeDynamic (bootstrap_method_attr_index name_and_type_index : Nat)
  | Placeholder
deriving DecidableEq

/-- `ConstantPool` from `src/class/mod.rs`. -/
structure ConstantPool where
  entries : List ConstantPoolEntry
deriving DecidableEq

/-- `ConstantPool::get`: `self.entries.get((index - 1) as usize)` for a
`u16` logical index; the subtraction wraps modulo `2^16`, so logical
index 0 reads physical slot 65535 (release semantics, see header). -/
def ConstantPool.get (cp : ConstantPool) (index : Nat) : Option ConstantPoolEntry :=
  cp.entries[(index + 65535) % 65536]?

/-- `ConstantPool::size`. -/
def ConstantPool.size (cp : ConstantPool) : Nat := cp.entries.length

/-- `ConstantPool::get_entry`, with the source's error strings kept
verbatim. -/
def ConstantPool.get_entry (cp : ConstantPool) (index : Nat) :
    Except String ConstantPoolEntry :=
  match cp.get index with
  | some e => .ok e
  | none => .error "Constant pool index out of bounds"

/-- `ConstantPool::get_utf8`. -/
def ConstantPool.get_utf8 (cp : ConstantPool) (index : Nat) :
    Except String (List Nat) :=
  match cp.get_entry index with
  | .error e => .error e
  | .ok entry =>
    match entry with
    | .Utf8 s => .ok s
    | _ => .error "Expected Utf8 attribute"

/-- `ConstantPool::get_class_name`. -/
def ConstantPool.get_class_name (cp : ConstantPool) (index : Nat) :
    Except String (List Nat) :=
  match cp.get_entry index with
  | .error e => .error e
  | .ok entry =>
    match entry with
    | .Class name_index => cp.get_utf8 name_index
    | _ => .error "Expected Class attribute"

/-- `NameAndType` (the resolved value) from `src/class/mod.rs`. -/
structure NameAndType where
  name : List Nat
  descriptor : List Nat
deriving DecidableEq

/-- `Methodref` (the resolved value) from `src/class/mod.rs`. -/
structure Methodref where
  class_name : List Nat
  name_and_type : NameAndType
deriving DecidableEq

/-- `Fieldref` (the resolved value) from `src/class/mod.rs`. -/
structure Fieldref where
  class_name : List Nat
  name_and_type : NameAndType
deriving DecidableEq

/-- `ConstantPool::get_name_and_type` (its wrong-kind error string really
is "Expected Class attribute" in the source). -/
def ConstantPool.get_name_and_type (cp : ConstantPool) (index : Nat) :
    Except String NameAndType :=
  match cp.get_entry index with
  | .error e => .error e
  | .ok entry =>
    match entry with
    | .NameAndType name_index descriptor_index =>
      match cp.get_utf8 name_index with
      | .error e => .error e
      | .ok name =>
        match cp.get_utf8 descriptor_index with
        | .error e => .error e
        | .ok descriptor => .ok { name := name, descriptor := descriptor }
    | _ => .error "Expected Class attribute"

/-- `ConstantPool::get_method_ref`. -/
def ConstantPool.get_method_ref (cp : ConstantPool) (index : Nat) :
    Except String Methodref :=
  match cp.get_entry index with
  | .error e => .error e
  | .ok entry =>
    match entry with
    | .Methodref class_index name_and_type_index =>
      match cp.get_class_name class_index with
      | .error e => .error e
      | .ok class_name =>
        match cp.get_name_and_type name_and_type_index with
        | .error e => .error e
        | .ok nat =>
          .ok { class_name := class_name, name_and_type := nat }
    | _ => .error "Expected Class attribute"

/-- `ConstantPool::get_field_ref`. -/
def ConstantPool.get_field_ref (cp : ConstantPool) (index : Nat) :
    Except String Fieldref :=
  match cp.get_entry index with
  | .error e => .error e
  | .ok entry =>
    match entry with
    | .Fieldref class_index name_and_type_index =>
      match cp.get_class_name class_index with
      | .error e => .error e
      | .ok class_name =>
        match cp.get_name_and_type name_and_type_index with
        | .error e => .error e
        | .ok nat =>
          .ok { class_name := class_name, name_and_type := nat }
    | _ => .error "Expected Class attribute"

/-- `ClassReaderError` from `src/classreader.rs`.  `InvalidAttributeName`
carries the resolved name as its UTF-8 byte sequence (see
`ConstantPoolEntry.Utf8`). -/
inductive ClassReaderError where
  | EndOfStream
  | InvalidMagic (v : Nat)
  | InvalidConstantTag (t : Nat)
  | InvalidUtf8
  | RemainingBytes
  | ExpectedAttributeName
  | InvalidAttributeName (name : List Nat)
  | InvalidStackMapFrame (t : Nat)
  | InvalidVerificationTypeInfo (t : Nat)
deriving DecidableEq

/-- The shape of every reader in `src/classreader.rs`: consume from the
front of the buffer, returning the value and the remaining bytes. -/
abbrev ReadRes (α : Type) := Except ClassReaderError (α × List Nat)

/-- Sequencing of readers, the `?` operator of the Rust source. -/
def rbind {α β : Type} (f : List Nat → ReadRes α)
    (g : α → List Nat → ReadRes β) : List Nat → ReadRes β :=
  fun buffer =>
    match f buffer with
    | .error e => .error e
    | .ok (a, rest) => g a rest

/-- A reader that consumes nothing and returns a value. -/
def rpure {α : Type} (a : α) : List Nat → ReadRes α := fun buffer => .ok (a, buffer)

/-- A reader that fails. -/
def rthrow {α : Type} (e : ClassReaderError) : List Nat → ReadRes α :=
  fun _ => .error e

/-- `read_u8`: `buffer.remove(0)`, or `EndOfStream` on an empty buffer. -/
def read_u8 : List Nat → ReadRes Nat
  | [] => .error .EndOfStream
  | b :: rest => .ok (b, rest)

/-- `read_u16`: two bytes, big-endian. -/
def read_u16 : List Nat → ReadRes Nat :=
  rbind read_u8 fun b1 =>
    rbind read_u8 fun b2 =>
      rpure (b1 * 256 + b2)

/-- `read_u32`: four bytes, big-endian. -/
def read_u32 : List Nat → ReadRes Nat :=
  rbind read_u8 fun b1 =>
    rbind read_u8 fun b2 =>
      rbind read_u8 fun b3 =>
        rbind read_u8 fun b4 =>
          rpure (b1 * 16777216 + b2 * 65536 + b3 * 256 + b4)

/-- `read_bytes`: an up-front length check (`EndOfStream` when the buffer
is shorter than requested), then the first `n` bytes are removed and
returned. -/
def read_bytes (n : Nat) : List Nat → ReadRes (List Nat) := fun buffer =>
  if buffer.length < n then .error .EndOfStream
  else .ok (buffer.take n, buffer.drop n)

/-- The count-prefixed loop shared by every list reader of
`src/classreader.rs` (`read_constant_pool_entries`, `read_u16_array`,
`read_fields`, ...): run the element reader `length` times in order,
collecting the results. -/
def readListLoop {α : Type} (f : List Nat → ReadRes α) : Nat → List Nat → ReadRes (List α)
  | 0, buffer => .ok ([], buffer)
  | n + 1, buffer =>
    match f buffer with
    | .error e => .error e
    | .ok (entry, b1) =>
      match readListLoop f n b1 with
      | .error e => .error e
      | .ok (entries, b2) => .ok (entry :: entries, b2)

/-- A continuation byte of a UTF-8 sequence. -/
def utf8Cont (b : Nat) : Bool := decide (0x80 ≤ b ∧ b ≤ 0xBF)

/-- UTF-8 validity of a byte sequence, the check `String::from_utf8`
performs (standard table: RFC 3629 well-formed byte distributions). -/
def validUtf8 : List Nat → Bool
  | [] => true
  | b :: rest =>
    if b ≤ 0x7F then validUtf8 rest
    else if decide (0xC2 ≤ b ∧ b ≤ 0xDF) then
      match rest with
      | c1 :: r => utf8Cont c1 && validUtf8 r
      | [] => false
    else if b = 0xE0 then
      match rest with
      | c1 :: c2 :: r => decide (0xA0 ≤ c1 ∧ c1 ≤ 0xBF) && utf8Cont c2 && validUtf8 r
      | _ => false
    else if decide ((0xE1 ≤ b ∧ b ≤ 0xEC) ∨ b = 0xEE ∨ b = 0xEF) then
      match rest with
      | c1 :: c2 :: r => utf8Cont c1 && utf8Cont c2 && validUtf8 r
      | _ => false
    else if b = 0xED then
      match rest with
      | c1 :: c2 :: r => decide (0x80 ≤ c1 ∧ c1 ≤ 0x9F) && utf8Cont c2 && validUtf8 r
      | _ => false
    else if b = 0xF0 then
      match rest with
      | c1 :: c2 :: c3 :: r =>
        decide (0x90 ≤ c1 ∧ c1 ≤ 0xBF) && utf8Cont c2 && utf8Cont c3 && validUtf8 r
      | _ => false
    else if decide (0xF1 ≤ b ∧ b ≤ 0xF3) then
      match rest with
      | c1 :: c2 :: c3 :: r => utf8Cont c1 && utf8Cont c2 && utf8Cont c3 && validUtf8 r
      | _ => false
    else if b = 0xF4 then
      match rest with
      | c1 :: c2 :: c3 :: r =>
        decide (0x80 ≤ c1 ∧ c1 ≤ 0x8F) && utf8Cont c2 && utf8Cont c3 && validUtf8 r
      | _ => false
    else false

/-- `read_utf8`: `read_bytes` then `String::from_utf8`, which fails with
`InvalidUtf8` on ill-formed UTF-8 and otherwise returns the string (kept
here as its bytes). -/
def read_utf8 (length : Nat) : List Nat → ReadRes (List Nat) :=
  rbind (read_bytes length) fun bytes => fun buffer =>
    if validUtf8 bytes then .ok (bytes, buffer) else .error .InvalidUtf8

/-- `read_magic`: a `u32` that must equal `0xCAFEBABE`. -/
def read_magic : List Nat → ReadRes Nat :=
  rbind read_u32 fun magic => fun buffer =>
    if magic = 0xCAFEBABE then .ok (magic, buffer)
    else .error (.InvalidMagic magic)

/-- `read_constant_pool_entry`: a one-byte tag (10/9/7/1/12/8/3 are the
supported tags, i.e. Methodref, Fieldref, Class, Utf8, NameAndType,
String, Integer), then tag-specific fields; any other tag fails with
`InvalidConstantTag` carrying the offending byte. -/
def read_constant_pool_entry : List Nat → ReadRes ConstantPoolEntry :=
  rbind read_u8 fun tag =>
    if tag = 10 then
      rbind read_u16 fun class_index =>
      rbind read_u16 fun name_and_type_index =>
      rpure (.Methodref class_index name_and_type_index)
    else if tag = 9 then
      rbind read_u16 fun class_index =>
      rbind read_u16 fun name_and_type_index =>
      rpure (.Fieldref class_index name_and_type_index)
    else if tag = 7 then
      rbind read_u16 fun name_index => rpure (.Class name_index)
    else if tag = 1 then
      rbind read_u16 fun length =>
      rbind (read_utf8 length) fun s =>
      rpure (.Utf8 s)
    else if tag = 12 then
      rbind read_u16 fun name_index =>
      rbind read_u16 fun descriptor_index =>
      rpure (.NameAndType name_index descriptor_index)
    else if tag = 8 then
      rbind read_u16 fun string_index => rpure (.String string_index)
    else if tag = 3 then
      rbind read_u32 fun bytes => rpure (.Integer bytes)
    else rthrow (.InvalidConstantTag tag)

/-- `read_constant_pool_entries`: `length` entries in order. -/
def read_constant_pool_entries (length : Nat) : List Nat → ReadRes (List ConstantPoolEntry) :=
  readListLoop read_constant_pool_entry length

/-- `read_u16_array`: `length` big-endian `u16` values in order. -/
def read_u16_array (length : Nat) : List Nat → ReadRes (List Nat) :=
  readListLoop read_u16 length

/-- `VerificationTypeInfo` from `src/class/mod.rs`. -/
inductive VerificationTypeInfo where
  | Top
  | Integer
  | Float
  | Null
  | UninitializedThis
  | Object (cpool_index : Nat)
  | Uninitialized (offset : Nat)
  | Long
  | Double
deriving DecidableEq

/-- `StackMapFrame` from `src/class/mod.rs`. -/
inductive StackMapFrame where
  | SameFrame
  | SameLocals1StackItemFrame (info : VerificationTypeInfo)
  | SameLocals1StackItemFrameExtended (info : VerificationTypeInfo)
  | ChopFrame (offset_delta : Nat)
  | SameFrameExtended (offset_delta : Nat)
  | AppendFrame (offset_delta : Nat) (locals : List VerificationTypeInfo)
  | FullFrame (offset_delta : Nat) (locals : List VerificationTypeInfo)
      (stack : List VerificationTypeInfo)
deriving DecidableEq

/-- `ExceptionTableEntry` from `src/class/mod.rs`. -/
structure ExceptionTableEntry where
  start_pc : Nat
  end_pc : Nat
  handler_pc : Nat
  catch_type : Nat
deriving DecidableEq

/-- `LineNumberTableEntry` from `src/class/mod.rs`. -/
structure LineNumberTableEntry where
  start_pc : Nat
  line_number : Nat
deriving DecidableEq

/-- `read_verification_type_info`: a one-byte tag 0-8, tags 7 and 8
carrying one extra `u16`; any other tag fails with
`InvalidVerificationTypeInfo`. -/
def read_verification_type_info : List Nat → ReadRes VerificationTypeInfo :=
  rbind read_u8 fun tag =>
    if tag = 0 then rpure .Top
    else if tag = 1 then rpure .Integer
    else if tag = 2 then rpure .Float
    else if tag = 3 then rpure .Double
    else if tag = 4 then rpure .Long
    else if tag = 5 then rpure .Null
    else if tag = 6 then rpure .UninitializedThis
    else if tag = 7 then rbind read_u16 fun cpool_index => rpure (.Object cpool_index)
    else if tag = 8 then rbind read_u16 fun offset => rpure (.Uninitialized offset)
    else rthrow (.InvalidVerificationTypeInfo tag)

/-- `read_verification_type_infos`: `length` entries in order. -/
def read_verification_type_infos (length : Nat) : List Nat → ReadRes (List VerificationTypeInfo) :=
  readListLoop read_verification_type_info length

/-- `read_stack_map_frame`: the six-way range-encoded frame-type byte. -/
def read_stack_map_frame : List Nat → ReadRes StackMapFrame :=
  rbind read_u8 fun frame_type =>
    if frame_type ≤ 63 then rpure .SameFrame
    else if frame_type ≤ 127 then
      rbind read_verification_type_info fun info =>
      rpure (.SameLocals1StackItemFrame info)
    else if frame_type = 247 then
      rbind read_verification_type_info fun info =>
      rpure (.SameLocals1StackItemFrameExtended info)
    else if decide (248 ≤ frame_type ∧ frame_type ≤ 250) then
      rbind read_u16 fun offset_delta => rpure (.ChopFrame offset_delta)
    else if frame_type = 251 then
      rbind read_u16 fun offset_delta => rpure (.SameFrameExtended offset_delta)
    else if decide (252 ≤ frame_type ∧ frame_type ≤ 254) then
      rbind read_u16 fun offset_delta =>
      rbind (read_verification_type_infos (frame_type - 251)) fun locals =>
      rpure (.AppendFrame offset_delta locals)
    else if frame_type = 255 then
      rbind read_u16 fun offset_delta =>
      rbind read_u16 fun number_of_locals =>
      rbind (read_verification_type_infos number_of_locals) fun locals =>
      rbind read_u16 fun number_of_stack_items =>
      rbind (read_verification_type_infos number_of_stack_items) fun stack =>
      rpure (.FullFrame offset_delta locals stack)
    else rthrow (.InvalidStackMapFrame frame_type)

/-- `read_stack_map_frames`: `length` frames in order. -/
def read_stack_map_frames (length : Nat) : List Nat → ReadRes (List StackMapFrame) :=
  readListLoop read_stack_map_frame length

/-- `read_line_number_table_entry`. -/
def read_line_number_table_entry : List Nat → ReadRes LineNumberTableEntry :=
  rbind read_u16 fun start_pc =>
  rbind read_u16 fun line_number =>
  rpure { start_pc := start_pc, line_number := line_number }

/-- `read_line_number_table_entries`: `length` entries in order. -/
def read_line_number_table_entries (length : Nat) : List Nat → ReadRes (List LineNumberTableEntry) :=
  readListLoop read_line_number_table_entry length

/-- `Attribute` from `src/class/mod.rs`, restricted to the variants the
reader under `src/` can construct (`Code`, `StackMapTable`,
`LineNumberTable`, `SourceFile`, `Signature`, `Exceptions`); the source
enum's further variants are never produced by any code under `src/` and
are irrelevant to its behaviour. -/
inductive Attribute where
  | Code (max_stack max_locals : Nat) (code : List Nat)
      (exceptions : List ExceptionTableEntry) (attributes : List Attribute)
  | StackMapTable (entries : List StackMapFrame)
  | Exceptions (exception_index : List Nat)
  | Signature (index : Nat)
  | SourceFile (index : Nat)
  | LineNumberTable (entries : List LineNumberTableEntry)

/-- The byte sequence of the string "Code". -/
def codeName : List Nat := [67, 111, 100, 101]

/-- The byte sequence of the string "SourceFile". -/
def sourceFileName : List Nat := [83, 111, 117, 114, 99, 101, 70, 105, 108, 101]

/-- The byte sequence of the string "LineNumberTable". -/
def lineNumberTableName : List Nat :=
  [76, 105, 110, 101, 78, 117, 109, 98, 101, 114, 84, 97, 98, 108, 101]

/-- The byte sequence of the string "Signature". -/
def signatureName : List Nat := [83, 105, 103, 110, 97, 116, 117, 114, 101]

/-- The byte sequence of the string "StackMapTable". -/
def stackMapTableName : List Nat :=
  [83, 116, 97, 99, 107, 77, 97, 112, 84, 97, 98, 108, 101]

/-- The byte sequence of the string "Exceptions". -/
def exceptionsName : List Nat := [69, 120, 99, 101, 112, 116, 105, 111, 110, 115]

/-- `Field` from `src/class/mod.rs` (renamed `FieldInfo` here because
Mathlib already declares `Field`). -/
structure FieldInfo where
  access_flags : Nat
  name_index : Nat
  descriptor_index : Nat
  attributes : List Attribute

/-- `Method` from `src/class/mod.rs`. -/
structure Method where
  access_flags : Nat
  name_index : Nat
  descriptor_index : Nat
  attributes : List Attribute

/-- `ClassFile` from `src/class/mod.rs`. -/
structure ClassFile where
  magic : Nat
  minor_version : Nat
  major_version : Nat
  constant_pool : ConstantPool
  access_flags : Nat
  this_class : Nat
  super_class : Nat
  interfaces : List Nat
  fields : List FieldInfo
  methods : List Method
  attributes : List Attribute

/-- The name dispatch of `read_attribute`: the `attribute_option` value
of the source - `some` of the recognized decoder's outcome on the sliced
sub-buffer, `none` for an unrecognized name.  The nested attribute list
of the `Code` branch is read by `nested`, which `read_attribute` ties to
itself at the next smaller fuel; the branch reads and discards
`exception_table_length`, always storing an empty exception table,
exactly as the source does. -/
def attribute_body_option (nested : Nat → List Nat → ReadRes (List Attribute))
    (attribute_name attribute_buffer : List Nat) :
    Option (Except ClassReaderError (Attribute × List Nat)) :=
  if attribute_name = codeName then some (
    (rbind read_u16 fun max_stack =>
     rbind read_u16 fun max_locals =>
     rbind read_u32 fun code_length =>
     rbind (read_bytes code_length) fun code =>
     rbind read_u16 fun _exception_table_length =>
     rbind read_u16 fun attributes_count =>
     rbind (nested attributes_count) fun attrs =>
     rpure (Attribute.Code max_stack max_locals code [] attrs)) attribute_buffer)
  else if attribute_name = stackMapTableName then some (
    (rbind read_u16 fun number_of_entries =>
     rbind (read_stack_map_frames number_of_entries) fun entries =>
     rpure (Attribute.StackMapTable entries)) attribute_buffer)
  else if attribute_name = lineNumberTableName then some (
    (rbind read_u16 fun line_number_table_length =>
     rbind (read_line_number_table_entries line_number_table_length) fun entries =>
     rpure (Attribute.LineNumberTable entries)) attribute_buffer)
  else if attribute_name = sourceFileName then some (
    (rbind read_u16 fun index => rpure (Attribute.SourceFile index)) attribute_buffer)
  else if attribute_name = signatureName then some (
    (rbind read_u16 fun index => rpure (Attribute.Signature index)) attribute_buffer)
  else if attribute_name = exceptionsName then some (
    (rbind read_u16 fun number_of_exceptions =>
     rbind (read_u16_array number_of_exceptions) fun exception_index =>
     rpure (Attribute.Exceptions exception_index)) attribute_buffer)
  else none

/-- `read_attribute`: name index, 32-bit length, slice of exactly that
many bytes into an isolated sub-buffer, name resolution through the pool
(`ExpectedAttributeName` when it fails), dispatch on the resolved name
(`attribute_body_option`; `InvalidAttributeName` outside the recognized
set), and a drained-check on the sub-buffer (`RemainingBytes` when the
recognized decoder left bytes).  The fuel bounds the Code-attribute
nesting depth (see header). -/
def read_attribute : Nat → List Nat → ConstantPool → ReadRes Attribute
  | 0, _, _ => .error .EndOfStream
  | fuel + 1, buffer, cp =>
    (rbind read_u16 fun attribute_name_index =>
     rbind read_u32 fun attribute_length =>
     rbind (read_bytes attribute_length) fun attribute_buffer =>
     fun rest =>
       match cp.get_utf8 attribute_name_index with
       | .error _ => .error .ExpectedAttributeName
       | .ok attribute_name =>
         match attribute_body_option
             (fun count b => readListLoop (fun b2 => read_attribute fuel b2 cp) count b)
             attribute_name attribute_buffer with
         | none => .error (.InvalidAttributeName attribute_name)
         | some (.error e) => .error e
         | some (.ok (attr, leftover)) =>
           if leftover.length > 0 then .error .RemainingBytes
           else .ok (attr, rest)) buffer

/-- `read_attributes`: `count` attributes in order (the nested call inside
the `Code` branch of `read_attribute` is this very loop, written there
through `readListLoop` so that the recursion is structural on fuel). -/
def read_attributes (fuel count : Nat) (buffer : List Nat) (cp : ConstantPool) :
    ReadRes (List Attribute) :=
  readListLoop (fun b => read_attribute fuel b cp) count buffer

/-- `read_field`. -/
def read_field (fuel : Nat) (cp : ConstantPool) : List Nat → ReadRes FieldInfo :=
  rbind read_u16 fun access_flags =>
  rbind read_u16 fun name_index =>
  rbind read_u16 fun descriptor_index =>
  rbind read_u16 fun attributes_count =>
  rbind (fun b => read_attributes fuel attributes_count b cp) fun attributes =>
  rpure { access_flags := access_flags, name_index := name_index,
          descriptor_index := descriptor_index, attributes := attributes }

/-- `read_fields`: `count` fields in order. -/
def read_fields (fuel count : Nat) (buffer : List Nat) (cp : ConstantPool) :
    ReadRes (List FieldInfo) :=
  readListLoop (read_field fuel cp) count buffer

/-- `read_method`. -/
def read_method (fuel : Nat) (cp : ConstantPool) : List Nat → ReadRes Method :=
  rbind read_u16 fun access_flags =>
  rbind read_u16 fun name_index =>
  rbind read_u16 fun descriptor_index =>
  rbind read_u16 fun attributes_count =>
  rbind (fun b => read_attributes fuel attributes_count b cp) fun attributes =>
  rpure { access_flags := access_flags, name_index := name_index,
          descriptor_index := descriptor_index, attributes := attributes }

/-- `read_methods`: `count` methods in order. -/
def read_methods (fuel count : Nat) (buffer : List Nat) (cp : ConstantPool) :
    ReadRes (List Method) :=
  readListLoop (read_method fuel cp) count buffer

/-- The body of `read_class_file`, i.e. everything before its final
whole-input check: every field of the class file read in fixed order off
the cursor.  The constant-pool entry count is the declared `u16` count
minus one, with the `u16` subtraction wrapping modulo `2^16` (so a
declared count of 0 makes the reader attempt 65535 entries; release
semantics, see header). -/
def read_class_file_body (fuel : Nat) : List Nat → ReadRes ClassFile :=
  rbind read_magic fun magic =>
  rbind read_u16 fun minor_version =>
  rbind read_u16 fun major_version =>
  rbind read_u16 fun cp_count =>
  rbind (read_constant_pool_entries ((cp_count + 65535) % 65536)) fun cp_entries =>
  rbind read_u16 fun access_flags =>
  rbind read_u16 fun this_class =>
  rbind read_u16 fun super_class =>
  rbind read_u16 fun interfaces_count =>
  rbind (read_u16_array interfaces_count) fun interfaces =>
  rbind read_u16 fun fields_count =>
  rbind (fun b => read_fields fuel fields_count b ⟨cp_entries⟩) fun fields =>
  rbind read_u16 fun methods_count =>
  rbind (fun b => read_methods fuel methods_count b ⟨cp_entries⟩) fun methods =>
  rbind read_u16 fun attributes_count =>
  rbind (fun b => read_attributes fuel attributes_count b ⟨cp_entries⟩) fun attributes =>
  rpure { magic := magic, minor_version := minor_version,
          major_version := major_version, constant_pool := ⟨cp_entries⟩,
          access_flags := access_flags, this_class := this_class,
          super_class := super_class, interfaces := interfaces,
          fields := fields, methods := methods, attributes := attributes }

/-- `read_class_file`: the body followed by the whole-input check - zero
remaining bytes yields the class file, anything else `RemainingBytes`.
The fuel `buffer.length + 1` strictly exceeds any reachable attribute
nesting depth (see header), so the model agrees with the source on every
input. -/
def read_class_file (buffer : List Nat) : Except ClassReaderError ClassFile :=
  match read_class_file_body (buffer.length + 1) buffer with
  | .error e => .error e
  | .ok (class_file, rest) =>
    if rest.length = 0 then .ok class_file else .error .RemainingBytes

/-- A sufficient condition under which `interpret_instruction` cannot
panic: the operand stack holds enough values for the pops the instruction
performs, every locals index it touches is in range, when the operand
shapes reach an array element access the reference is a live arena entry
with the element index in range, and a reached `Newarray` allocation
size fits a `Vec` of `i32` (`size * 4 ≤ isize::MAX` - a negative count
cast to `usize` violates this and makes `vec![0; size]` panic with
capacity overflow).  Outside this condition the source can hit
`Option::unwrap` on `None`, an out-of-range `Vec` index, or the
capacity-overflow panic. -/
def SafeFor : Instruction → JvmState → Prop
  | .Aload1, s => 1 < s.frame.locals.length
  | .Astore1, s => 1 ≤ s.frame.stack.length ∧ 1 < s.frame.locals.length
  | .Dup, s => 1 ≤ s.frame.stack.length
  | .Iadd, s => 2 ≤ s.frame.stack.length
  | .Isub, s => 2 ≤ s.frame.stack.length
  | .Imul, s => 2 ≤ s.frame.stack.length
  | .Iaload, s => 2 ≤ s.frame.stack.length ∧
      ∀ i r rest, s.frame.stack = .Integer i :: .IntegerArrayReference r :: rest →
        ∃ a, s.heap[r]? = some a ∧ usizeOfI32 i < a.length
  | .Iastore, s => 3 ≤ s.frame.stack.length ∧
      ∀ v i r rest,
        s.frame.stack = .Integer v :: .Integer i :: .IntegerArrayReference r :: rest →
        ∃ a, s.heap[r]? = some a ∧ usizeOfI32 i < a.length
  | .Iload index, s => index < s.frame.locals.length
  | .Iload0, s => 0 < s.frame.locals.length
  | .Iload1, s => 1 < s.frame.locals.length
  | .Iload2, s => 2 < s.frame.locals.length
  | .Iload3, s => 3 < s.frame.locals.length
  | .Istore index, s => 1 ≤ s.frame.stack.length ∧ index < s.frame.locals.length
  | .Istore0, s => 1 ≤ s.frame.stack.length ∧ 0 < s.frame.locals.length
  | .Istore1, s => 1 ≤ s.frame.stack.length ∧ 1 < s.frame.locals.length
  | .Istore2, s => 1 ≤ s.frame.stack.length ∧ 2 < s.frame.locals.length
  | .Istore3, s => 1 ≤ s.frame.stack.length ∧ 3 < s.frame.locals.length
  | .Newarray _, s => 1 ≤ s.frame.stack.length ∧
      ∀ count rest, s.frame.stack = .Integer count :: rest →
        usizeOfI32 count * 4 ≤ 2 ^ 63 - 1
  | _, _ => True

/-- Entry-by-entry decoding chain: each listed constant-pool entry is
decoded by `read_constant_pool_entry` from the position where the
previous one stopped, linking the start buffer to the final rest.  This
pins down that entries are parsed in serialized order, none dropped,
duplicated or reordered. -/
inductive CpChain : List Nat → List ConstantPoolEntry → List Nat → Prop where
  | nil (buffer : List Nat) : CpChain buffer [] buffer
  | cons {buffer mid rest : List Nat} {e : ConstantPoolEntry}
      {es : List ConstantPoolEntry} :
      read_constant_pool_entry buffer = .ok (e, mid) →
      CpChain mid es rest → CpChain buffer (e :: es) rest

/-- Prefix-stability of a reader: when it succeeds on a buffer, it
succeeds with the same value on the buffer extended by any suffix,
leaving that suffix untouched at the end of the remainder. -/
def PrefOk {α : Type} (f : List Nat → ReadRes α) : Prop :=
  ∀ buffer t v rest, f buffer = .ok (v, rest) → f (buffer ++ t) = .ok (v, rest ++ t)

/-- One reader refines another on successes: every `Ok` outcome of the
first is an `Ok` outcome of the second with the same value and
remainder.  Used to relate the fueled readers at different fuels. -/
def OkPres {α : Type} (f g : List Nat → ReadRes α) : Prop :=
  ∀ bs v rest, f bs = .ok (v, rest) → g bs = .ok (v, rest)

/-! ## Theorems about the interpreter -/

/-- C1 (amended): the interpreter executes the decoded sequence strictly
in order against the one frame, stopping early only on a panic or an
`InterpreterError`; but the `Return` arm is a no-op (`Ok(())` without
breaking the loop), so execution continues with the instructions after a
`Return`, as the concrete run of `[Return, Iconst0]` shows. -/
theorem interpret_in_order_return_noop :
    (∀ (pre post : List Instruction) (s : JvmState),
        runInstructions (pre ++ post) s = bindRun (runInstructions pre s) post) ∧
    (∀ s : JvmState, interpret_instruction .Return s = some (.ok s)) ∧
    interpret 1 0 [.Return, .Iconst0] =
      some (.ok { frame := { locals := [], stack := [.Integer 0] }, heap := [] }) := by
  refine ⟨?_, fun s => rfl, rfl⟩
  intro pre
  induction pre with
  | nil => intro post s; rfl
  | cons i rest ih =>
    intro post s
    simp only [List.cons_append, runInstructions, bindRun]
    cases h : interpret_instruction i s with
    | none => rfl
    | some r =>
      cases r with
      | error e => rfl
      | ok s' => exact ih post s'

/-- C1 counterexample: the claim "no instruction after the first Return
is executed" fails at the sequence `[Return, Iconst0]`: the run differs
from the run of `[Return]` alone, ending with the later instruction's
push on the stack. -/
theorem return_does_not_end_frame :
    interpret 1 0 [.Return, .Iconst0] ≠ interpret 1 0 [.Return] ∧
    interpret 1 0 [.Return, .Iconst0] =
      some (.ok { frame := { locals := [], stack := [.Integer 0] }, heap := [] }) ∧
    interpret 1 0 [.Return] =
      some (.ok { frame := { locals := [], stack := [] }, heap := [] }) :=
  ⟨by decide, rfl, rfl⟩

/-- C2: `Iadd`/`Isub`/`Imul` pop value2 (top) then value1 and push the
single integer value1 OP value2 with 32-bit wraparound; and the concrete
sequence `[push 2, push 3, add]` on a fresh frame leaves exactly the one
stack value integer 5. -/
theorem iarith_pops_two_pushes_wrapped :
    (∀ (s : JvmState) (v1 v2 : Int) (rest : List StackValue),
      s.frame.stack = .Integer v2 :: .Integer v1 :: rest →
      interpret_instruction .Iadd s =
        some (.ok { s with frame :=
          { s.frame with stack := .Integer (wrap32 (v1 + v2)) :: rest } }) ∧
      interpret_instruction .Isub s =
        some (.ok { s with frame :=
          { s.frame with stack := .Integer (wrap32 (v1 - v2)) :: rest } }) ∧
      interpret_instruction .Imul s =
        some (.ok { s with frame :=
          { s.frame with stack := .Integer (wrap32 (v1 * v2)) :: rest } })) ∧
    interpret 2 0 [.Iconst2, .Iconst3, .Iadd] =
      some (.ok { frame := { locals := [], stack := [.Integer 5] }, heap := [] }) := by
  constructor
  · rintro ⟨⟨locals, stack⟩, heap⟩ v1 v2 rest h
    simp only at h
    subst h
    exact ⟨rfl, rfl, rfl⟩
  · rfl

/-- C2 witness: the arithmetic clause applied at a concrete frame. -/
theorem iarith_witness :
    interpret_instruction .Iadd
      { frame := { locals := [], stack := [.Integer 3, .Integer 2] }, heap := [] } =
      some (.ok { frame := { locals := [], stack := [.Integer 5] }, heap := [] }) := by
  have h := (iarith_pops_two_pushes_wrapped.1
    { frame := { locals := [], stack := [.Integer 3, .Integer 2] }, heap := [] }
    2 3 [] rfl).1
  rw [h]
  decide

/-- C3 counterexample: `interpret_instruction` panics (modelled as
`none`, not a named `InterpreterError`) when popping an empty operand
stack (`pop_stack().unwrap()` in `Dup`), when reading a locals slot
beyond the locals length (`Iload 0` with zero locals), and when
`Newarray` pops a negative count (`(-1) as usize` is `2^64 - 1`, so
`vec![0; count as usize]` panics with capacity overflow). -/
theorem interpreter_panics_on_underflow_and_bad_local :
    interpret_instruction .Dup { frame := { locals := [], stack := [] }, heap := [] } = none ∧
    interpret_instruction (.Iload 0)
      { frame := { locals := [], stack := [] }, heap := [] } = none ∧
    interpret_instruction (.Newarray 10)
      { frame := { locals := [], stack := [.Integer (-1)] }, heap := [] } = none :=
  ⟨rfl, rfl, rfl⟩

/-- C3 (amended): every failure the interpreter itself detects is a named
`InterpreterError` returned to the caller; whenever the frame offers the
operands the instruction pops, its locals indices are in range, any
reached array element access is in range and any reached array
allocation size fits a `Vec` of `i32` (`SafeFor`), the instruction
returns a named outcome (`Ok` or an `InterpreterError`) and cannot
panic.  Outside `SafeFor` the source may panic - on an empty-stack pop,
an out-of-range locals index, or a negative `Newarray` count - as the
counterexample shows. -/
theorem interpret_instruction_total_on_safe (i : Instruction) (s : JvmState)
    (h : SafeFor i s) :
    ∃ r : Except InterpreterError JvmState, interpret_instruction i s = some r := by
  rw [← Option.ne_none_iff_exists']
  obtain ⟨⟨locals, stack⟩, heap⟩ := s
  cases i with
  | Aload1 =>
    simp only [SafeFor] at h
    simp [interpret_instruction, StackFrame.get_local, List.getElem?_eq_getElem h]
  | Astore1 =>
    obtain ⟨h1, h2⟩ := h
    simp only at h1 h2
    rcases stack with _ | ⟨v, rest⟩
    · simp at h1
    · simp [interpret_instruction, StackFrame.pop_stack, StackFrame.set_local, h2]
  | Dup =>
    simp only [SafeFor] at h
    rcases stack with _ | ⟨v, rest⟩
    · simp at h
    · simp [interpret_instruction, StackFrame.pop_stack]
  | Iadd =>
    simp only [SafeFor] at h
    rcases stack with _ | ⟨v1, _ | ⟨v2, rest⟩⟩
    · simp at h
    · simp at h
    · cases v1 <;> cases v2 <;>
        simp [interpret_instruction, StackFrame.pop_int, StackFrame.pop_stack]
  | Isub =>
    simp only [SafeFor] at h
    rcases stack with _ | ⟨v1, _ | ⟨v2, rest⟩⟩
    · simp at h
    · simp at h
    · cases v1 <;> cases v2 <;>
        simp [interpret_instruction, StackFrame.pop_int, StackFrame.pop_stack]
  | Imul =>
    simp only [SafeFor] at h
    rcases stack with _ | ⟨v1, _ | ⟨v2, rest⟩⟩
    · simp at h
    · simp at h
    · cases v1 <;> cases v2 <;>
        simp [interpret_instruction, StackFrame.pop_int, StackFrame.pop_stack]
  | Iaload =>
    obtain ⟨h1, harr⟩ := h
    simp only at h1 harr
    rcases stack with _ | ⟨v1, _ | ⟨v2, rest⟩⟩
    · simp at h1
    · simp at h1
    · cases v1 <;> cases v2 <;>
        first
          | (simp [interpret_instruction, StackFrame.pop_int, StackFrame.pop_int_array,
               StackFrame.pop_stack]
             done)
          | (rename_i i r
             obtain ⟨a, hh, hlt⟩ := harr i r rest rfl
             simp [interpret_instruction, StackFrame.pop_int, StackFrame.pop_int_array,
               StackFrame.pop_stack, IntArray.get, hh, List.getElem?_eq_getElem hlt])
  | Iastore =>
    obtain ⟨h1, harr⟩ := h
    simp only at h1 harr
    rcases stack with _ | ⟨v1, _ | ⟨v2, _ | ⟨v3, rest⟩⟩⟩
    · simp at h1
    · simp at h1
    · simp at h1
    · cases v1 <;> cases v2 <;> cases v3 <;>
        first
          | (simp [interpret_instruction, StackFrame.pop_int, StackFrame.pop_int_array,
               StackFrame.pop_stack]
             done)
          | (rename_i v i r
             obtain ⟨a, hh, hlt⟩ := harr v i r rest rfl
             simp [interpret_instruction, StackFrame.pop_int, StackFrame.pop_int_array,
               StackFrame.pop_stack, IntArray.set, hh, hlt])
  | Iconst0 => simp [interpret_instruction]
  | Iconst1 => simp [interpret_instruction]
  | Iconst2 => simp [interpret_instruction]
  | Iconst3 => simp [interpret_instruction]
  | Iconst4 => simp [interpret_instruction]
  | Iconst5 => simp [interpret_instruction]
  | Iload index =>
    simp only [SafeFor] at h
    cases hv : locals[index]? with
    | none =>
      rw [List.getElem?_eq_none_iff] at hv
      omega
    | some v =>
      cases v <;>
        simp [interpret_instruction, StackFrame.get_int_local, StackFrame.get_local, hv]
  | Iload0 =>
    simp only [SafeFor] at h
    cases hv : locals[0]? with
    | none =>
      rw [List.getElem?_eq_none_iff] at hv
      omega
    | some v =>
      cases v <;>
        simp [interpret_instruction, StackFrame.get_int_local, StackFrame.get_local, hv]
  | Iload1 =>
    simp only [SafeFor] at h
    cases hv : locals[1]? with
    | none =>
      rw [List.getElem?_eq_none_iff] at hv
      omega
    | some v =>
      cases v <;>
        simp [interpret_instruction, StackFrame.get_int_local, StackFrame.get_local, hv]
  | Iload2 =>
    simp only [SafeFor] at h
    cases hv : locals[2]? with
    | none =>
      rw [List.getElem?_eq_none_iff] at hv
      omega
    | some v =>
      cases v <;>
        simp [interpret_instruction, StackFrame.get_int_local, StackFrame.get_local, hv]
  | Iload3 =>
    simp only [SafeFor] at h
    cases hv : locals[3]? with
    | none =>
      rw [List.getElem?_eq_none_iff] at hv
      omega
    | some v =>
      cases v <;>
        simp [interpret_instruction, StackFrame.get_int_local, StackFrame.get_local, hv]
  | Istore index =>
    obtain ⟨h1, h2⟩ := h
    simp only at h1 h2
    rcases stack with _ | ⟨v, rest⟩
    · simp at h1
    · cases v <;>
        simp [interpret_instruction, StackFrame.pop_int, StackFrame.pop_stack,
          StackFrame.set_int_local, StackFrame.set_local, h2]
  | Istore0 =>
    obtain ⟨h1, h2⟩ := h
    simp only at h1 h2
    rcases stack with _ | ⟨v, rest⟩
    · simp at h1
    · cases v <;>
        simp [interpret_instruction, StackFrame.pop_int, StackFrame.pop_stack,
          StackFrame.set_int_local, StackFrame.set_local, h2]
  | Istore1 =>
    obtain ⟨h1, h2⟩ := h
    simp only at h1 h2
    rcases stack with _ | ⟨v, rest⟩
    · simp at h1
    · cases v <;>
        simp [interpret_instruction, StackFrame.pop_int, StackFrame.pop_stack,
          StackFrame.set_int_local, StackFrame.set_local, h2]
  | Istore2 =>
    obtain ⟨h1, h2⟩ := h
    simp only at h1 h2
    rcases stack with _ | ⟨v, rest⟩
    · simp at h1
    · cases v <;>
        simp [interpret_instruction, StackFrame.pop_int, StackFrame.pop_stack,
          StackFrame.set_int_local, StackFrame.set_local, h2]
  | Istore3 =>
    obtain ⟨h1, h2⟩ := h
    simp only at h1 h2
    rcases stack with _ | ⟨v, rest⟩
    · simp at h1
    · cases v <;>
        simp [interpret_instruction, StackFrame.pop_int, StackFrame.pop_stack,
          StackFrame.set_int_local, StackFrame.set_local, h2]
  | Newarray atype =>
    obtain ⟨h1, halloc⟩ := h
    simp only at h1 halloc
    rcases stack with _ | ⟨v, rest⟩
    · simp at h1
    · cases v <;>
        first
          | (simp [interpret_instruction, StackFrame.pop_int, StackFrame.pop_stack]
             done)
          | (rename_i count
             have hb : usizeOfI32 count * 4 ≤ 9223372036854775807 := by
               simpa using halloc count rest rfl
             by_cases ha : atype = 10
             · simp [interpret_instruction, StackFrame.pop_int, StackFrame.pop_stack,
                 IntArray.new, ha, hb]
             · simp [interpret_instruction, StackFrame.pop_int, StackFrame.pop_stack,
                 ha])
  | Sipush value => simp [interpret_instruction]
  | Return => simp [interpret_instruction]
  | Nop => simp [interpret_instruction]
  | Aload0 => simp [interpret_instruction]

/-- C3 witness: the totality theorem applied at a concrete safe frame. -/
theorem interpret_instruction_total_witness :
    ∃ r : Except InterpreterError JvmState,
      interpret_instruction .Iadd
        { frame := { locals := [], stack := [.Integer 1, .Integer 2] }, heap := [] } =
        some r :=
  interpret_instruction_total_on_safe .Iadd
    { frame := { locals := [], stack := [.Integer 1, .Integer 2] }, heap := [] }
    (by constructor)

/-- C4 counterexample: `Aload1` on an uninitialized slot does not yield
an operand-type error - it silently pushes the `Empty` marker itself onto
the operand stack and reports success. -/
theorem aload1_silently_pushes_empty_marker :
    interpret_instruction .Aload1
      { frame := { locals := [.Empty, .Empty], stack := [] }, heap := [] } =
      some (.ok { frame := { locals := [.Empty, .Empty], stack := [.Empty] }, heap := [] }) :=
  rfl

/-- C4 (amended): the typed local loads (`Iload` and the shorthands 0-3)
copy an integer slot to the top of the stack and yield the operand-type
error on an uninitialized (`Empty`) or mistyped slot; the typed stores
(`Istore` and the shorthands 0-3) copy the popped integer into the slot;
but the reference forms are unchecked copies: `Aload1` pushes whatever
slot 1 holds (including the `Empty` marker, silently) and `Astore1`
stores the popped value whatever it is. -/
theorem local_load_store_semantics :
    (∀ (s : JvmState) (index : Nat) (v : StackValue),
        s.frame.locals[index]? = some v → (∀ n : Int, v ≠ .Integer n) →
        interpret_instruction (.Iload index) s = some (.error .UnexpectedOperand)) ∧
    (∀ (s : JvmState) (v : StackValue),
        s.frame.locals[0]? = some v → (∀ n : Int, v ≠ .Integer n) →
        interpret_instruction .Iload0 s = some (.error .UnexpectedOperand)) ∧
    (∀ (s : JvmState) (v : StackValue),
        s.frame.locals[1]? = some v → (∀ n : Int, v ≠ .Integer n) →
        interpret_instruction .Iload1 s = some (.error .UnexpectedOperand)) ∧
    (∀ (s : JvmState) (v : StackValue),
        s.frame.locals[2]? = some v → (∀ n : Int, v ≠ .Integer n) →
        interpret_instruction .Iload2 s = some (.error .UnexpectedOperand)) ∧
    (∀ (s : JvmState) (v : StackValue),
        s.frame.locals[3]? = some v → (∀ n : Int, v ≠ .Integer n) →
        interpret_instruction .Iload3 s = some (.error .UnexpectedOperand)) ∧
    (∀ (s : JvmState) (index : Nat) (n : Int),
        s.frame.locals[index]? = some (.Integer n) →
        interpret_instruction (.Iload index) s =
          some (.ok { s with frame := s.frame.push_int n })) ∧
    (∀ (s : JvmState) (n : Int),
        s.frame.locals[0]? = some (.Integer n) →
        interpret_instruction .Iload0 s =
          some (.ok { s with frame := s.frame.push_int n })) ∧
    (∀ (s : JvmState) (n : Int),
        s.frame.locals[1]? = some (.Integer n) →
        interpret_instruction .Iload1 s =
          some (.ok { s with frame := s.frame.push_int n })) ∧
    (∀ (s : JvmState) (n : Int),
        s.frame.locals[2]? = some (.Integer n) →
        interpret_instruction .Iload2 s =
          some (.ok { s with frame := s.frame.push_int n })) ∧
    (∀ (s : JvmState) (n : Int),
        s.frame.locals[3]? = some (.Integer n) →
        interpret_instruction .Iload3 s =
          some (.ok { s with frame := s.frame.push_int n })) ∧
    (∀ (s : JvmState) (index : Nat) (n : Int) (rest : List StackValue),
        s.frame.stack = .Integer n :: rest → index < s.frame.locals.length →
        interpret_instruction (.Istore index) s =
          some (.ok { s with frame :=
            { locals := s.frame.locals.set index (.Integer n), stack := rest } })) ∧
    (∀ (s : JvmState) (n : Int) (rest : List StackValue),
        s.frame.stack = .Integer n :: rest → 0 < s.frame.locals.length →
        interpret_instruction .Istore0 s =
          some (.ok { s with frame :=
            { locals := s.frame.locals.set 0 (.Integer n), stack := rest } })) ∧
    (∀ (s : JvmState) (n : Int) (rest : List StackValue),
        s.frame.stack = .Integer n :: rest → 1 < s.frame.locals.length →
        interpret_instruction .Istore1 s =
          some (.ok { s with frame :=
            { locals := s.frame.locals.set 1 (.Integer n), stack := rest } })) ∧
    (∀ (s : JvmState) (n : Int) (rest : List StackValue),
        s.frame.stack = .Integer n :: rest → 2 < s.frame.locals.length →
        interpret_instruction .Istore2 s =
          some (.ok { s with frame :=
            { locals := s.frame.locals.set 2 (.Integer n), stack := rest } })) ∧
    (∀ (s : JvmState) (n : Int) (rest : List StackValue),
        s.frame.stack = .Integer n :: rest → 3 < s.frame.locals.length →
        interpret_instruction .Istore3 s =
          some (.ok { s with frame :=
            { locals := s.frame.locals.set 3 (.Integer n), stack := rest } })) ∧
    (∀ (s : JvmState) (v : StackValue),
        s.frame.locals[1]? = some v →
        interpret_instruction .Aload1 s = some (.ok { s with frame := s.frame.push_stack v })) ∧
    (∀ (s : JvmState) (v : StackValue) (rest : List StackValue),
        s.frame.stack = v :: rest → 1 < s.frame.locals.length →
        interpret_instruction .Astore1 s =
          some (.ok { s with frame :=
            { locals := s.frame.locals.set 1 v, stack := rest } })) := by
  refine ⟨?_, ?_, ?_, ?_, ?_, ?_, ?_, ?_, ?_, ?_, ?_, ?_, ?_, ?_, ?_, ?_, ?_⟩
  · rintro ⟨⟨locals, stack⟩, heap⟩ index v hv hne
    cases v <;>
      simp [interpret_instruction, StackFrame.get_int_local, StackFrame.get_local, hv]
    exact absurd rfl (hne _)
  · rintro ⟨⟨locals, stack⟩, heap⟩ v hv hne
    cases v <;>
      simp [interpret_instruction, StackFrame.get_int_local, StackFrame.get_local, hv]
    exact absurd rfl (hne _)
  · rintro ⟨⟨locals, stack⟩, heap⟩ v hv hne
    cases v <;>
      simp [interpret_instruction, StackFrame.get_int_local, StackFrame.get_local, hv]
    exact absurd rfl (hne _)
  · rintro ⟨⟨locals, stack⟩, heap⟩ v hv hne
    cases v <;>
      simp [interpret_instruction, StackFrame.get_int_local, StackFrame.get_local, hv]
    exact absurd rfl (hne _)
  · rintro ⟨⟨locals, stack⟩, heap⟩ v hv hne
    cases v <;>
      simp [interpret_instruction, StackFrame.get_int_local, StackFrame.get_local, hv]
    exact absurd rfl (hne _)
  · rintro ⟨⟨locals, stack⟩, heap⟩ index n hv
    simp [interpret_instruction, StackFrame.get_int_local, StackFrame.get_local, hv,
      StackFrame.push_int, StackFrame.push_stack]
  · rintro ⟨⟨locals, stack⟩, heap⟩ n hv
    simp [interpret_instruction, StackFrame.get_int_local, StackFrame.get_local, hv,
      StackFrame.push_int, StackFrame.push_stack]
  · rintro ⟨⟨locals, stack⟩, heap⟩ n hv
    simp [interpret_instruction, StackFrame.get_int_local, StackFrame.get_local, hv,
      StackFrame.push_int, StackFrame.push_stack]
  · rintro ⟨⟨locals, stack⟩, heap⟩ n hv
    simp [interpret_instruction, StackFrame.get_int_local, StackFrame.get_local, hv,
      StackFrame.push_int, StackFrame.push_stack]
  · rintro ⟨⟨locals, stack⟩, heap⟩ n hv
    simp [interpret_instruction, StackFrame.get_int_local, StackFrame.get_local, hv,
      StackFrame.push_int, StackFrame.push_stack]
  · rintro ⟨⟨locals, stack⟩, heap⟩ index n rest hstack hlen
    simp only at hstack hlen
    subst hstack
    simp [interpret_instruction, StackFrame.pop_int, StackFrame.pop_stack,
      StackFrame.set_int_local, StackFrame.set_local, hlen]
  · rintro ⟨⟨locals, stack⟩, heap⟩ n rest hstack hlen
    simp only at hstack hlen
    subst hstack
    simp [interpret_instruction, StackFrame.pop_int, StackFrame.pop_stack,
      StackFrame.set_int_local, StackFrame.set_local, hlen]
  · rintro ⟨⟨locals, stack⟩, heap⟩ n rest hstack hlen
    simp only at hstack hlen
    subst hstack
    simp [interpret_instruction, StackFrame.pop_int, StackFrame.pop_stack,
      StackFrame.set_int_local, StackFrame.set_local, hlen]
  · rintro ⟨⟨locals, stack⟩, heap⟩ n rest hstack hlen
    simp only at hstack hlen
    subst hstack
    simp [interpret_instruction, StackFrame.pop_int, StackFrame.pop_stack,
      StackFrame.set_int_local, StackFrame.set_local, hlen]
  · rintro ⟨⟨locals, stack⟩, heap⟩ n rest hstack hlen
    simp only at hstack hlen
    subst hstack
    simp [interpret_instruction, StackFrame.pop_int, StackFrame.pop_stack,
      StackFrame.set_int_local, StackFrame.set_local, hlen]
  · rintro ⟨⟨locals, stack⟩, heap⟩ v hv
    simp [interpret_instruction, StackFrame.get_local, hv]
  · rintro ⟨⟨locals, stack⟩, heap⟩ v rest hstack hlen
    simp only at hstack hlen
    subst hstack
    simp [interpret_instruction, StackFrame.pop_stack, StackFrame.set_local, hlen]

/-- C4 witness: the typed-load error clause applied at a concrete frame
with an uninitialized slot. -/
theorem local_load_error_witness :
    interpret_instruction (.Iload 0)
      { frame := { locals := [.Empty], stack := [] }, heap := [] } =
      some (.error .UnexpectedOperand) :=
  local_load_store_semantics.1
    { frame := { locals := [.Empty], stack := [] }, heap := [] } 0 .Empty rfl
    (fun n h => by cases h)

/-- C6: duplicating an `IntegerArrayReference` duplicates the reference
only: allocating an integer array (`Newarray` with type code 10) from a
positive count, duplicating the reference with `Dup`, storing `v` at
index 0 through one copy (`Iastore`) and loading index 0 through the
other copy (`Iaload`) observes `v` - mutation through one alias is
visible through the other, and the final heap holds the one shared
array updated in place. -/
theorem dup_aliases_shared_array (count v : Int) (h1 : 1 ≤ count)
    (h2 : count < 2 ^ 31) :
    runInstructions
      [.Sipush count, .Newarray 10, .Dup, .Iconst0, .Sipush v, .Iastore,
       .Iconst0, .Iaload]
      { frame := { locals := [], stack := [] }, heap := [] } =
    some (.ok { frame := { locals := [], stack := [.Integer v] },
                heap := [(List.replicate (usizeOfI32 count) 0).set 0 v] }) := by
  have hmod : count % 2 ^ 64 = count :=
    Int.emod_eq_of_lt (by omega) (by omega)
  have hpos : 0 < usizeOfI32 count := by
    unfold usizeOfI32
    rw [hmod]
    omega
  obtain ⟨m, hm⟩ : ∃ m, usizeOfI32 count = m + 1 :=
    ⟨usizeOfI32 count - 1, by omega⟩
  have hb : usizeOfI32 count * 4 ≤ 9223372036854775807 := by
    unfold usizeOfI32
    rw [hmod]
    omega
  rw [hm] at hb
  have h0 : usizeOfI32 0 = 0 := rfl
  simp [runInstructions, interpret_instruction, StackFrame.pop_int,
    StackFrame.pop_int_array, StackFrame.pop_stack, StackFrame.push_int,
    StackFrame.push_stack, IntArray.new, IntArray.set, IntArray.get,
    hm, hb, h0, List.replicate_succ]

/-- C6 witness: the aliasing theorem at count 1 and value 5 - the load
through the second copy of the reference observes the 5 stored through
the first copy, and the heap ends as the single array `[5]`. -/
theorem dup_aliases_shared_array_witness :
    runInstructions
      [.Sipush 1, .Newarray 10, .Dup, .Iconst0, .Sipush 5, .Iastore,
       .Iconst0, .Iaload]
      { frame := { locals := [], stack := [] }, heap := [] } =
    some (.ok { frame := { locals := [], stack := [.Integer 5] },
                heap := [[5]] }) := by
  have h := dup_aliases_shared_array 1 5 (by norm_num) (by norm_num)
  simpa using h

/-! ## Theorems about constant-pool resolution -/

/-- C5: constant-pool resolution is recursive dereference.  On any pool
whose links are well formed at the queried index, `get_method_ref` and
`get_field_ref` produce the class name through the `Class` entry's name
index and the two `Utf8` strings of the `NameAndType`; an entry of the
wrong kind fails with the type-mismatch error; and an index whose slot
does not exist - logical index 0 reads wrapped physical slot 65535, and
out-of-range indices read past the end - fails with the out-of-bounds
error.  Resolution is a total function into these named outcomes: it
never panics and never returns a default value. -/
theorem pool_resolution_recursive (cp : ConstantPool) :
    (∀ i mi nti cni cn ni di nm d,
      cp.get i = some (.Methodref mi nti) →
      cp.get mi = some (.Class cni) →
      cp.get cni = some (.Utf8 cn) →
      cp.get nti = some (.NameAndType ni di) →
      cp.get ni = some (.Utf8 nm) →
      cp.get di = some (.Utf8 d) →
      cp.get_method_ref i =
        .ok { class_name := cn, name_and_type := { name := nm, descriptor := d } }) ∧
    (∀ i fi nti cni cn ni di nm d,
      cp.get i = some (.Fieldref fi nti) →
      cp.get fi = some (.Class cni) →
      cp.get cni = some (.Utf8 cn) →
      cp.get nti = some (.NameAndType ni di) →
      cp.get ni = some (.Utf8 nm) →
      cp.get di = some (.Utf8 d) →
      cp.get_field_ref i =
        .ok { class_name := cn, name_and_type := { name := nm, descriptor := d } }) ∧
    (∀ i e, cp.get i = some e → (∀ a b, e ≠ .Methodref a b) →
      cp.get_method_ref i = .error "Expected Class attribute") ∧
    (∀ i e, cp.get i = some e → (∀ a b, e ≠ .Fieldref a b) →
      cp.get_field_ref i = .error "Expected Class attribute") ∧
    (∀ i, cp.get i = none →
      cp.get_method_ref i = .error "Constant pool index out of bounds") ∧
    (cp.entries.length < 65536 →
      cp.get_method_ref 0 = .error "Constant pool index out of bounds") := by
  refine ⟨?_, ?_, ?_, ?_, ?_, ?_⟩
  · intro i mi nti cni cn ni di nm d h1 h2 h3 h4 h5 h6
    simp [ConstantPool.get_method_ref, ConstantPool.get_entry,
      ConstantPool.get_class_name, ConstantPool.get_name_and_type,
      ConstantPool.get_utf8, h1, h2, h3, h4, h5, h6]
  · intro i fi nti cni cn ni di nm d h1 h2 h3 h4 h5 h6
    simp [ConstantPool.get_field_ref, ConstantPool.get_entry,
      ConstantPool.get_class_name, ConstantPool.get_name_and_type,
      ConstantPool.get_utf8, h1, h2, h3, h4, h5, h6]
  · intro i e h1 hne
    cases e <;>
      simp [ConstantPool.get_method_ref, ConstantPool.get_entry, h1]
    exact absurd rfl (hne _ _)
  · intro i e h1 hne
    cases e <;>
      simp [ConstantPool.get_field_ref, ConstantPool.get_entry, h1]
    exact absurd rfl (hne _ _)
  · intro i h1
    simp [ConstantPool.get_method_ref, ConstantPool.get_entry, h1]
  · intro hlen
    have h0 : cp.get 0 = none := by
      unfold ConstantPool.get
      rw [List.getElem?_eq_none_iff]
      omega
    simp [ConstantPool.get_method_ref, ConstantPool.get_entry, h0]

/-- C5 witness: resolution clauses applied at a concrete six-entry pool
(Methodref at logical index 1 linking Class 2 -> Utf8 3 and
NameAndType 4 -> Utf8 5/6), plus the wrong-kind and index-0 failures. -/
theorem pool_resolution_witness :
    ConstantPool.get_method_ref
      ⟨[.Methodref 2 4, .Class 3, .Utf8 [65], .NameAndType 5 6, .Utf8 [109],
        .Utf8 [40, 41]]⟩ 1 =
      .ok { class_name := [65], name_and_type := { name := [109], descriptor := [40, 41] } } ∧
    ConstantPool.get_method_ref ⟨[.Utf8 [65]]⟩ 1 = .error "Expected Class attribute" ∧
    ConstantPool.get_method_ref ⟨[.Utf8 [65]]⟩ 0 =
      .error "Constant pool index out of bounds" := by
  refine ⟨?_, ?_, ?_⟩
  · exact (pool_resolution_recursive _).1 1 2 4 3 [65] 5 6 [109] [40, 41]
      rfl rfl rfl rfl rfl rfl
  · exact (pool_resolution_recursive _).2.2.1 1 (.Utf8 [65]) rfl (fun a b h => by cases h)
  · exact (pool_resolution_recursive _).2.2.2.2.2 (by norm_num)

/-! ## Theorems about the class-file reader -/

/-- C8: whenever `read_constant_pool_entries` succeeds reading `n`
entries (and `read_class_file` invokes it with the declared 2-byte count
minus one), the parsed list has exactly `n` entries and forms a decoding
chain: the i-th parsed entry is decoded from the i-th serialized entry in
order - none dropped, duplicated or reordered. -/
theorem constant_pool_count_and_order (n : Nat) (buffer rest : List Nat)
    (entries : List ConstantPoolEntry)
    (h : read_constant_pool_entries n buffer = .ok (entries, rest)) :
    entries.length = n ∧ CpChain buffer entries rest := by
  induction n generalizing buffer entries rest with
  | zero =>
    simp only [read_constant_pool_entries, readListLoop] at h
    cases h
    exact ⟨rfl, .nil buffer⟩
  | succ m ih =>
    simp only [read_constant_pool_entries, readListLoop] at h
    cases he : read_constant_pool_entry buffer with
    | error e => rw [he] at h; cases h
    | ok p =>
      obtain ⟨e, mid⟩ := p
      simp only [he] at h
      cases hrec : readListLoop read_constant_pool_entry m mid with
      | error e2 => simp only [hrec] at h; cases h
      | ok q =>
        obtain ⟨es, rest2⟩ := q
        simp only [hrec] at h
        cases h
        obtain ⟨hl, hc⟩ := ih mid rest es hrec
        exact ⟨by simp [hl], .cons he hc⟩

/-- C8 witness: the counting theorem applied to one serialized `Class`
entry (tag 7, name index 2). -/
theorem constant_pool_count_witness :
    ([ConstantPoolEntry.Class 2] : List ConstantPoolEntry).length = 1 ∧
    CpChain [7, 0, 2] [.Class 2] [] :=
  constant_pool_count_and_order 1 [7, 0, 2] [] [.Class 2] rfl

/-- C9: an attribute whose header parses and whose name index resolves
through the pool to a Utf8 string outside the recognized six-name set
fails with `InvalidAttributeName` carrying exactly that string, instead
of being skipped using its declared length. -/
theorem unrecognized_attribute_name_fails (fuel : Nat) (cp : ConstantPool)
    (buffer b1 b2 sub rest name : List Nat) (idx len : Nat)
    (h1 : read_u16 buffer = .ok (idx, b1))
    (h2 : read_u32 b1 = .ok (len, b2))
    (h3 : read_bytes len b2 = .ok (sub, rest))
    (h4 : cp.get_utf8 idx = .ok name)
    (h5 : name ≠ codeName) (h6 : name ≠ stackMapTableName)
    (h7 : name ≠ lineNumberTableName) (h8 : name ≠ sourceFileName)
    (h9 : name ≠ signatureName) (h10 : name ≠ exceptionsName) :
    read_attribute (fuel + 1) buffer cp = .error (.InvalidAttributeName name) := by
  simp only [read_attribute, rbind, h1, h2, h3, h4]
  simp [attribute_body_option, h5, h6, h7, h8, h9, h10]

/-- C9 witness: a pool whose entry 1 is the Utf8 string "Foo" and an
attribute header naming it - parsing fails carrying exactly "Foo". -/
theorem unrecognized_attribute_witness :
    read_attribute 1 [0, 1, 0, 0, 0, 0] ⟨[.Utf8 [70, 111, 111]]⟩ =
      .error (.InvalidAttributeName [70, 111, 111]) :=
  unrecognized_attribute_name_fails 0 ⟨[.Utf8 [70, 111, 111]]⟩
    [0, 1, 0, 0, 0, 0] [0, 0, 0, 0] [] [] [] [70, 111, 111] 1 0
    rfl rfl rfl rfl (by decide) (by decide) (by decide) (by decide) (by decide)
    (by decide)

/-- C10 counterexample: with magic, versions, and a declared
constant-pool count of 0, `read_class_file` DOES return a named
`ClassReaderError`: under the wrapping `u16` subtraction the reader
attempts 65535 entries and the minimal 10-byte input fails with
`EndOfStream`. -/
theorem cp_count_zero_gives_end_of_stream :
    read_class_file [0xCA, 0xFE, 0xBA, 0xBE, 0, 0, 0, 52, 0, 0] =
      .error .EndOfStream := rfl

/-- C10 (amended): a declared constant-pool count of 0 does make the
`u16` subtraction `count - 1` misbehave - it wraps to 65535, so the
reader attempts 65535 entries; on every minimal 10-byte input (magic,
any minor/major version bytes, count 0) the result is the named error
`EndOfStream` from the first entry read, not a count-specific error, so
the declared-count-minus-one contract indeed carries the undeclared
precondition count >= 1. -/
theorem cp_count_zero_underflow_wraps (b1 b2 b3 b4 : Nat) :
    read_class_file [0xCA, 0xFE, 0xBA, 0xBE, b1, b2, b3, b4, 0, 0] =
      .error .EndOfStream ∧
    read_constant_pool_entries ((0 + 65535) % 65536) [] = .error .EndOfStream := by
  constructor
  · have hcp : read_constant_pool_entries 65535 [] = .error .EndOfStream := rfl
    simp [read_class_file, read_class_file_body, read_magic, read_u32, read_u16,
      read_u8, rbind, rpure, hcp]
  · rfl

/-! ## Prefix-stability and fuel-monotonicity of the readers

These lemmas support the whole-input theorem: a parse that succeeds on a
buffer runs identically on the buffer extended by extra bytes, which then
remain unconsumed; and a fueled reader's successes are preserved by any
larger fuel. -/

theorem prefOk_rpure {α : Type} (a : α) : PrefOk (rpure a) := by
  intro bs t v rest h
  unfold rpure at h ⊢
  cases h
  rfl

theorem prefOk_rthrow {α : Type} (e : ClassReaderError) :
    PrefOk (rthrow (α := α) e) := by
  intro bs t v rest h
  simp [rthrow] at h

theorem prefOk_rbind {α β : Type} {f : List Nat → ReadRes α}
    {g : α → List Nat → ReadRes β} (hf : PrefOk f) (hg : ∀ a, PrefOk (g a)) :
    PrefOk (rbind f g) := by
  intro bs t v rest h
  unfold rbind at h ⊢
  cases hfe : f bs with
  | error e => simp only [hfe] at h; cases h
  | ok p =>
    obtain ⟨a, mid⟩ := p
    simp only [hfe] at h
    simp only [hf bs t a mid hfe]
    exact hg a mid t v rest h

theorem prefOk_ite {α : Type} {c : Prop} [Decidable c]
    {f g : List Nat → ReadRes α} (hf : PrefOk f) (hg : PrefOk g) :
    PrefOk (if c then f else g) := by
  by_cases hc : c
  · rw [if_pos hc]; exact hf
  · rw [if_neg hc]; exact hg

theorem prefOk_read_u8 : PrefOk read_u8 := by
  intro bs t v rest h
  cases bs with
  | nil => cases h
  | cons b bs' =>
    cases h
    rfl

theorem prefOk_read_u16 : PrefOk read_u16 :=
  prefOk_rbind prefOk_read_u8 fun _ =>
    prefOk_rbind prefOk_read_u8 fun _ => prefOk_rpure _

theorem prefOk_read_u32 : PrefOk read_u32 :=
  prefOk_rbind prefOk_read_u8 fun _ =>
    prefOk_rbind prefOk_read_u8 fun _ =>
      prefOk_rbind prefOk_read_u8 fun _ =>
        prefOk_rbind prefOk_read_u8 fun _ => prefOk_rpure _

theorem prefOk_read_bytes (n : Nat) : PrefOk (read_bytes n) := by
  intro bs t v rest h
  unfold read_bytes at h ⊢
  split at h
  · cases h
  · rename_i hlen
    rw [Nat.not_lt] at hlen
    cases h
    rw [if_neg (by simp only [List.length_append]; omega)]
    rw [List.take_append_of_le_length hlen, List.drop_append_of_le_length hlen]

theorem prefOk_read_utf8 (n : Nat) : PrefOk (read_utf8 n) :=
  prefOk_rbind (prefOk_read_bytes n) fun bytes => by
    intro bs t v rest h
    dsimp only at h ⊢
    by_cases hv : validUtf8 bytes
    · rw [if_pos hv] at h ⊢
      cases h
      rfl
    · rw [if_neg hv] at h
      cases h

theorem prefOk_read_magic : PrefOk read_magic :=
  prefOk_rbind prefOk_read_u32 fun magic => by
    intro bs t v rest h
    dsimp only at h ⊢
    by_cases hm : magic = 0xCAFEBABE
    · rw [if_pos hm] at h ⊢
      cases h
      rfl
    · rw [if_neg hm] at h
      cases h

theorem prefOk_readListLoop {α : Type} {f : List Nat → ReadRes α}
    (hf : PrefOk f) : ∀ n, PrefOk (readListLoop f n) := by
  intro n
  induction n with
  | zero =>
    intro bs t v rest h
    unfold readListLoop at h ⊢
    cases h
    rfl
  | succ m ih =>
    intro bs t v rest h
    unfold readListLoop at h ⊢
    cases hfe : f bs with
    | error e => simp only [hfe] at h; cases h
    | ok p =>
      obtain ⟨a, mid⟩ := p
      simp only [hfe] at h
      simp only [hf bs t a mid hfe]
      cases hrec : readListLoop f m mid with
      | error e => simp only [hrec] at h; cases h
      | ok q =>
        obtain ⟨es, rest2⟩ := q
        simp only [hrec] at h
        simp only [ih mid t es rest2 hrec]
        cases h
        rfl

theorem prefOk_read_constant_pool_entry : PrefOk read_constant_pool_entry :=
  prefOk_rbind prefOk_read_u8 fun _ =>
    prefOk_ite
      (prefOk_rbind prefOk_read_u16 fun _ =>
        prefOk_rbind prefOk_read_u16 fun _ => prefOk_rpure _)
      (prefOk_ite
        (prefOk_rbind prefOk_read_u16 fun _ =>
          prefOk_rbind prefOk_read_u16 fun _ => prefOk_rpure _)
        (prefOk_ite
          (prefOk_rbind prefOk_read_u16 fun _ => prefOk_rpure _)
          (prefOk_ite
            (prefOk_rbind prefOk_read_u16 fun len =>
              prefOk_rbind (prefOk_read_utf8 len) fun _ => prefOk_rpure _)
            (prefOk_ite
              (prefOk_rbind prefOk_read_u16 fun _ =>
                prefOk_rbind prefOk_read_u16 fun _ => prefOk_rpure _)
              (prefOk_ite
                (prefOk_rbind prefOk_read_u16 fun _ => prefOk_rpure _)
                (prefOk_ite
                  (prefOk_rbind prefOk_read_u32 fun _ => prefOk_rpure _)
                  (prefOk_rthrow _)))))))

theorem prefOk_read_constant_pool_entries (n : Nat) :
    PrefOk (read_constant_pool_entries n) :=
  prefOk_readListLoop prefOk_read_constant_pool_entry n

theorem prefOk_read_u16_array (n : Nat) : PrefOk (read_u16_array n) :=
  prefOk_readListLoop prefOk_read_u16 n

theorem prefOk_read_verification_type_info : PrefOk read_verification_type_info :=
  prefOk_rbind prefOk_read_u8 fun _ =>
    prefOk_ite (prefOk_rpure _)
      (prefOk_ite (prefOk_rpure _)
        (prefOk_ite (prefOk_rpure _)
          (prefOk_ite (prefOk_rpure _)
            (prefOk_ite (prefOk_rpure _)
              (prefOk_ite (prefOk_rpure _)
                (prefOk_ite (prefOk_rpure _)
                  (prefOk_ite
                    (prefOk_rbind prefOk_read_u16 fun _ => prefOk_rpure _)
                    (prefOk_ite
                      (prefOk_rbind prefOk_read_u16 fun _ => prefOk_rpure _)
                      (prefOk_rthrow _)))))))))

theorem prefOk_read_verification_type_infos (n : Nat) :
    PrefOk (read_verification_type_infos n) :=
  prefOk_readListLoop prefOk_read_verification_type_info n

theorem prefOk_read_stack_map_frame : PrefOk read_stack_map_frame :=
  prefOk_rbind prefOk_read_u8 fun ft =>
    prefOk_ite (prefOk_rpure _)
      (prefOk_ite
        (prefOk_rbind prefOk_read_verification_type_info fun _ => prefOk_rpure _)
        (prefOk_ite
          (prefOk_rbind prefOk_read_verification_type_info fun _ => prefOk_rpure _)
          (prefOk_ite
            (prefOk_rbind prefOk_read_u16 fun _ => prefOk_rpure _)
            (prefOk_ite
              (prefOk_rbind prefOk_read_u16 fun _ => prefOk_rpure _)
              (prefOk_ite
                (prefOk_rbind prefOk_read_u16 fun _ =>
                  prefOk_rbind (prefOk_read_verification_type_infos (ft - 251)) fun _ =>
                    prefOk_rpure _)
                (prefOk_ite
                  (prefOk_rbind prefOk_read_u16 fun _ =>
                    prefOk_rbind prefOk_read_u16 fun nl =>
                      prefOk_rbind (prefOk_read_verification_type_infos nl) fun _ =>
                        prefOk_rbind prefOk_read_u16 fun ns =>
                          prefOk_rbind (prefOk_read_verification_type_infos ns) fun _ =>
                            prefOk_rpure _)
                  (prefOk_rthrow _)))))))

theorem prefOk_read_stack_map_frames (n : Nat) : PrefOk (read_stack_map_frames n) :=
  prefOk_readListLoop prefOk_read_stack_map_frame n

theorem prefOk_read_line_number_table_entry : PrefOk read_line_number_table_entry :=
  prefOk_rbind prefOk_read_u16 fun _ =>
    prefOk_rbind prefOk_read_u16 fun _ => prefOk_rpure _

theorem prefOk_read_line_number_table_entries (n : Nat) :
    PrefOk (read_line_number_table_entries n) :=
  prefOk_readListLoop prefOk_read_line_number_table_entry n

theorem prefOk_read_attribute (fuel : Nat) (cp : ConstantPool) :
    PrefOk (fun bs => read_attribute fuel bs cp) := by
  cases fuel with
  | zero =>
    intro bs t v rest h
    simp [read_attribute] at h
  | succ f =>
    refine prefOk_rbind prefOk_read_u16 fun ani =>
      prefOk_rbind prefOk_read_u32 fun alen =>
        prefOk_rbind (prefOk_read_bytes alen) fun ab => ?_
    intro bs t v rest h
    dsimp only at h ⊢
    cases hname : cp.get_utf8 ani with
    | error e => simp only [hname] at h; cases h
    | ok nm =>
      simp only [hname] at h ⊢
      cases hao : attribute_body_option
          (fun count b => readListLoop (fun b2 => read_attribute f b2 cp) count b)
          nm ab with
      | none => simp only [hao] at h; cases h
      | some r =>
        simp only [hao] at h ⊢
        cases r with
        | error e => cases h
        | ok p =>
          obtain ⟨attr, leftover⟩ := p
          dsimp only at h ⊢
          split at h
          · cases h
          · rename_i hlen
            rw [if_neg hlen]
            cases h
            rfl

theorem prefOk_read_attributes (fuel count : Nat) (cp : ConstantPool) :
    PrefOk (fun bs => read_attributes fuel count bs cp) :=
  prefOk_readListLoop (prefOk_read_attribute fuel cp) count

theorem prefOk_read_field (fuel : Nat) (cp : ConstantPool) :
    PrefOk (read_field fuel cp) :=
  prefOk_rbind prefOk_read_u16 fun _ =>
    prefOk_rbind prefOk_read_u16 fun _ =>
      prefOk_rbind prefOk_read_u16 fun _ =>
        prefOk_rbind prefOk_read_u16 fun ac =>
          prefOk_rbind (prefOk_read_attributes fuel ac cp) fun _ => prefOk_rpure _

theorem prefOk_read_method (fuel : Nat) (cp : ConstantPool) :
    PrefOk (read_method fuel cp) :=
  prefOk_rbind prefOk_read_u16 fun _ =>
    prefOk_rbind prefOk_read_u16 fun _ =>
      prefOk_rbind prefOk_read_u16 fun _ =>
        prefOk_rbind prefOk_read_u16 fun ac =>
          prefOk_rbind (prefOk_read_attributes fuel ac cp) fun _ => prefOk_rpure _

theorem prefOk_read_class_file_body (fuel : Nat) :
    PrefOk (read_class_file_body fuel) :=
  prefOk_rbind prefOk_read_magic fun _ =>
    prefOk_rbind prefOk_read_u16 fun _ =>
      prefOk_rbind prefOk_read_u16 fun _ =>
        prefOk_rbind prefOk_read_u16 fun cpc =>
          prefOk_rbind (prefOk_read_constant_pool_entries _) fun cpe =>
            prefOk_rbind prefOk_read_u16 fun _ =>
              prefOk_rbind prefOk_read_u16 fun _ =>
                prefOk_rbind prefOk_read_u16 fun _ =>
                  prefOk_rbind prefOk_read_u16 fun ic =>
                    prefOk_rbind (prefOk_read_u16_array ic) fun _ =>
                      prefOk_rbind prefOk_read_u16 fun fc =>
                        prefOk_rbind
                          (prefOk_readListLoop (prefOk_read_field fuel ⟨cpe⟩) fc) fun _ =>
                          prefOk_rbind prefOk_read_u16 fun mc =>
                            prefOk_rbind
                              (prefOk_readListLoop (prefOk_read_method fuel ⟨cpe⟩) mc) fun _ =>
                              prefOk_rbind prefOk_read_u16 fun ac =>
                                prefOk_rbind
                                  (prefOk_read_attributes fuel ac ⟨cpe⟩) fun _ =>
                                  prefOk_rpure _

theorem okPres_refl {α : Type} (f : List Nat → ReadRes α) : OkPres f f :=
  fun _ _ _ h => h

theorem okPres_rbind {α β : Type} {f f' : List Nat → ReadRes α}
    {g g' : α → List Nat → ReadRes β} (hf : OkPres f f')
    (hg : ∀ a, OkPres (g a) (g' a)) : OkPres (rbind f g) (rbind f' g') := by
  intro bs v rest h
  unfold rbind at h ⊢
  cases hfe : f bs with
  | error e => simp only [hfe] at h; cases h
  | ok p =>
    obtain ⟨a, mid⟩ := p
    simp only [hfe] at h
    simp only [hf bs a mid hfe]
    exact hg a mid v rest h

theorem okPres_readListLoop {α : Type} {f g : List Nat → ReadRes α}
    (hfg : OkPres f g) : ∀ n, OkPres (readListLoop f n) (readListLoop g n) := by
  intro n
  induction n with
  | zero => exact okPres_refl _
  | succ m ih =>
    intro bs v rest h
    unfold readListLoop at h ⊢
    cases hfe : f bs with
    | error e => simp only [hfe] at h; cases h
    | ok p =>
      obtain ⟨a, mid⟩ := p
      simp only [hfe] at h
      simp only [hfg bs a mid hfe]
      cases hrec : readListLoop f m mid with
      | error e => simp only [hrec] at h; cases h
      | ok q =>
        obtain ⟨es, rest2⟩ := q
        simp only [hrec] at h
        simp only [ih mid es rest2 hrec]
        exact h

theorem attribute_body_option_ok_congr
    {nested nested' : Nat → List Nat → ReadRes (List Attribute)}
    (hn : ∀ count, OkPres (nested count) (nested' count))
    (name ab : List Nat) (r : Attribute × List Nat)
    (h : attribute_body_option nested name ab = some (.ok r)) :
    attribute_body_option nested' name ab = some (.ok r) := by
  unfold attribute_body_option at h ⊢
  by_cases h1 : name = codeName
  · rw [if_pos h1] at h ⊢
    injection h with h'
    refine congrArg some ?_
    obtain ⟨attr, leftover⟩ := r
    exact okPres_rbind (okPres_refl _) (fun _ =>
      okPres_rbind (okPres_refl _) (fun _ =>
        okPres_rbind (okPres_refl _) (fun _ =>
          okPres_rbind (okPres_refl _) (fun _ =>
            okPres_rbind (okPres_refl _) (fun _ =>
              okPres_rbind (okPres_refl _) (fun ac =>
                okPres_rbind (hn ac) (fun _ => okPres_refl _)))))))
      ab attr leftover h'
  · rw [if_neg h1] at h ⊢
    exact h

theorem read_attribute_mono :
    ∀ fuel fuel', fuel ≤ fuel' → ∀ cp : ConstantPool,
      OkPres (fun bs => read_attribute fuel bs cp)
        (fun bs => read_attribute fuel' bs cp) := by
  intro fuel
  induction fuel with
  | zero =>
    intro fuel' _ cp bs v rest h
    simp [read_attribute] at h
  | succ f ih =>
    intro fuel' hle cp
    obtain ⟨f', rfl⟩ : ∃ x, fuel' = x + 1 := ⟨fuel' - 1, by omega⟩
    have hff' : f ≤ f' := by omega
    refine okPres_rbind (okPres_refl _) fun ani =>
      okPres_rbind (okPres_refl _) fun alen =>
        okPres_rbind (okPres_refl _) fun ab => ?_
    intro bs v rest h
    dsimp only at h ⊢
    cases hname : cp.get_utf8 ani with
    | error e => simp only [hname] at h ⊢; exact h
    | ok nm =>
      simp only [hname] at h ⊢
      cases hao : attribute_body_option
          (fun count b => readListLoop (fun b2 => read_attribute f b2 cp) count b)
          nm ab with
      | none => simp only [hao] at h; cases h
      | some r =>
        simp only [hao] at h
        cases r with
        | error e => cases h
        | ok p =>
          have hao' := attribute_body_option_ok_congr
            (fun count => okPres_readListLoop (ih f' hff' cp) count) nm ab p hao
          simp only [hao']
          exact h

theorem read_attributes_mono (fuel fuel' : Nat) (hle : fuel ≤ fuel')
    (count : Nat) (cp : ConstantPool) :
    OkPres (fun bs => read_attributes fuel count bs cp)
      (fun bs => read_attributes fuel' count bs cp) :=
  okPres_readListLoop (read_attribute_mono fuel fuel' hle cp) count

theorem read_field_mono (fuel fuel' : Nat) (hle : fuel ≤ fuel')
    (cp : ConstantPool) : OkPres (read_field fuel cp) (read_field fuel' cp) :=
  okPres_rbind (okPres_refl _) fun _ =>
    okPres_rbind (okPres_refl _) fun _ =>
      okPres_rbind (okPres_refl _) fun _ =>
        okPres_rbind (okPres_refl _) fun ac =>
          okPres_rbind (read_attributes_mono fuel fuel' hle ac cp) fun _ =>
            okPres_refl _

theorem read_method_mono (fuel fuel' : Nat) (hle : fuel ≤ fuel')
    (cp : ConstantPool) : OkPres (read_method fuel cp) (read_method fuel' cp) :=
  okPres_rbind (okPres_refl _) fun _ =>
    okPres_rbind (okPres_refl _) fun _ =>
      okPres_rbind (okPres_refl _) fun _ =>
        okPres_rbind (okPres_refl _) fun ac =>
          okPres_rbind (read_attributes_mono fuel fuel' hle ac cp) fun _ =>
            okPres_refl _

theorem read_class_file_body_mono (fuel fuel' : Nat) (hle : fuel ≤ fuel') :
    OkPres (read_class_file_body fuel) (read_class_file_body fuel') :=
  okPres_rbind (okPres_refl _) fun _ =>
    okPres_rbind (okPres_refl _) fun _ =>
      okPres_rbind (okPres_refl _) fun _ =>
        okPres_rbind (okPres_refl _) fun _ =>
          okPres_rbind (okPres_refl _) fun cpe =>
            okPres_rbind (okPres_refl _) fun _ =>
              okPres_rbind (okPres_refl _) fun _ =>
                okPres_rbind (okPres_refl _) fun _ =>
                  okPres_rbind (okPres_refl _) fun _ =>
                    okPres_rbind (okPres_refl _) fun _ =>
                      okPres_rbind (okPres_refl _) fun fc =>
                        okPres_rbind
                          (okPres_readListLoop (read_field_mono fuel fuel' hle ⟨cpe⟩) fc)
                          fun _ =>
                          okPres_rbind (okPres_refl _) fun mc =>
                            okPres_rbind
                              (okPres_readListLoop
                                (read_method_mono fuel fuel' hle ⟨cpe⟩) mc) fun _ =>
                              okPres_rbind (okPres_refl _) fun ac =>
                                okPres_rbind
                                  (read_attributes_mono fuel fuel' hle ac ⟨cpe⟩)
                                  fun _ => okPres_refl _

/-- C7: whenever `read_class_file` succeeds on a byte sequence, its body
consumed exactly the whole input (zero bytes remain after the top-level
attribute list); and the same bytes with one extra trailing byte appended
fail with `RemainingBytes` and no other error. -/
theorem parse_consumes_exactly_and_rejects_trailing (buffer : List Nat)
    (b : Nat) (cf : ClassFile) (h : read_class_file buffer = .ok cf) :
    read_class_file_body (buffer.length + 1) buffer = .ok (cf, []) ∧
    read_class_file (buffer ++ [b]) = .error .RemainingBytes := by
  unfold read_class_file at h
  cases hbody : read_class_file_body (buffer.length + 1) buffer with
  | error e => simp only [hbody] at h; cases h
  | ok p =>
    obtain ⟨cf', rest⟩ := p
    simp only [hbody] at h
    split at h
    · rename_i hrest
      cases h
      have hrestnil : rest = [] := List.eq_nil_of_length_eq_zero hrest
      subst hrestnil
      refine ⟨rfl, ?_⟩
      have h1 : read_class_file_body (buffer.length + 1) (buffer ++ [b]) =
          .ok (cf, [] ++ [b]) :=
        prefOk_read_class_file_body (buffer.length + 1) buffer [b] cf [] hbody
      have h2 : read_class_file_body ((buffer ++ [b]).length + 1) (buffer ++ [b]) =
          .ok (cf, [b]) := by
        have hle : buffer.length + 1 ≤ (buffer ++ [b]).length + 1 := by
          simp
        exact read_class_file_body_mono _ _ hle (buffer ++ [b]) cf [b]
          (by simpa using h1)
      unfold read_class_file
      rw [h2]
      simp
    · cases h

/-- C7 witness: the whole-input theorem applied at a concrete 24-byte
minimal class file (magic, versions, empty pool, no members, no
attributes) with the trailing byte 7. -/
theorem parse_trailing_witness :
    read_class_file_body
        (([0xCA, 0xFE, 0xBA, 0xBE, 0, 0, 0, 52, 0, 1, 0, 0x21, 0, 2, 0, 3,
           0, 0, 0, 0, 0, 0, 0, 0] : List Nat).length + 1)
        [0xCA, 0xFE, 0xBA, 0xBE, 0, 0, 0, 52, 0, 1, 0, 0x21, 0, 2, 0, 3,
         0, 0, 0, 0, 0, 0, 0, 0] =
      .ok ({ magic := 0xCAFEBABE, minor_version := 0, major_version := 52,
             constant_pool := ⟨[]⟩, access_flags := 0x21, this_class := 2,
             super_class := 3, interfaces := [], fields := [], methods := [],
             attributes := [] }, []) ∧
    read_class_file
        ([0xCA, 0xFE, 0xBA, 0xBE, 0, 0, 0, 52, 0, 1, 0, 0x21, 0, 2, 0, 3,
          0, 0, 0, 0, 0, 0, 0, 0] ++ [7]) = .error .RemainingBytes :=
  parse_consumes_exactly_and_rejects_trailing
    [0xCA, 0xFE, 0xBA, 0xBE, 0, 0, 0, 52, 0, 1, 0, 0x21, 0, 2, 0, 3,
     0, 0, 0, 0, 0, 0, 0, 0] 7
    { magic := 0xCAFEBABE, minor_version := 0, major_version := 52,
      constant_pool := ⟨[]⟩, access_flags := 0x21, this_class := 2,
      super_class := 3, interfaces := [], fields := [], methods := [],
      attributes := [] } rfl
